import Mathlib

/-!
Shallow embedding of the `rdap_types` crate (src/rdap_types/src/lib.rs):
a tolerant decoder/encoder for RDAP JSON documents. JSON values are
modelled by an inductive `Json` (integers only; the decoders under study
never accept floating point numbers). serde deserializers become functions
`Json → Except DecErr α` (or `String → α` for the infallible string-level
codecs), serde serializers become functions `α → Json`. Rust `String`
is modelled by Lean `String`; the ASCII fragment of Rust's Unicode case
mappings is modelled explicitly (all vocabulary tables are ASCII).
-/

/-- Simplified JSON value tree, as produced by serde_json. Numbers are
modelled as integers: every numeric field of the crate is an unsigned
integer and floats are rejected by all decoders under study. Object
fields are an ordered association list, matching the preserve-order
representation (see `JCardItem.parameters`). -/
inductive Json where
  | null : Json
  | bool (b : Bool) : Json
  | num (n : Int) : Json
  | str (s : String) : Json
  | arr (elems : List Json) : Json
  | obj (fields : List (String × Json)) : Json

/-- Decode errors, mirroring the `serde::de::Error` constructors the crate
uses: `invalid_type`, `invalid_value`, `invalid_length`, unknown variant,
missing field, and `Error::custom` (used for datetime parse errors). -/
inductive DecErr where
  | invalidType (found : String) (expected : String) : DecErr
  | invalidValue (value : String) (expected : String) : DecErr
  | invalidLength (len : Nat) (expected : String) : DecErr
  | unknownVariant (got : String) : DecErr
  | missingField (name : String) : DecErr
  | custom (msg : String) : DecErr
deriving DecidableEq

/-- Whether an `Except` result is a success. -/
def isOkE {ε α : Type} : Except ε α → Bool
  | .ok _ => true
  | .error _ => false

@[simp] theorem isOkE_ok {ε α : Type} (a : α) : isOkE (ε := ε) (.ok a) = true := rfl

@[simp] theorem isOkE_error {ε α : Type} (e : ε) : isOkE (α := α) (.error e) = false := rfl

/-- ASCII fragment of Rust `char::is_uppercase` (the vocabulary tables and
all claim inputs are ASCII; non-ASCII case mappings are out of model scope). -/
def charIsUpper (c : Char) : Bool := decide (65 ≤ c.toNat ∧ c.toNat ≤ 90)

/-- ASCII fragment of Rust `char::to_lowercase`. -/
def charToLower (c : Char) : Char :=
  if 65 ≤ c.toNat ∧ c.toNat ≤ 90 then Char.ofNat (c.toNat + 32) else c

/-- Model of Rust `string.chars().any(|c| c.is_uppercase())`. -/
def hasUppercase (s : String) : Bool := s.data.any charIsUpper

/-- Model of Rust `String::to_lowercase` (ASCII fragment). -/
def toLowercase (s : String) : String := ⟨s.data.map charToLower⟩

/-- Embedding of `deserialize_string_lowercase` (lib.rs lines 10-21) after
the inner `String::deserialize` has succeeded: lowercase the string only
when it contains an uppercase character. -/
def deserializeStringLowercase (s : String) : String :=
  if hasUppercase s then toLowercase s else s

theorem charIsUpper_charToLower (c : Char) : charIsUpper (charToLower c) = false := by
  unfold charToLower
  by_cases h : 65 ≤ c.toNat ∧ c.toNat ≤ 90
  · simp only [h, if_true]
    have key : ∀ m : Fin 91, 65 ≤ m.val →
        charIsUpper (Char.ofNat (m.val + 32)) = false := by decide
    exact key ⟨c.toNat, Nat.lt_succ_of_le h.2⟩ h.1
  · simp only [h, if_false]
    unfold charIsUpper
    simpa using h

theorem charToLower_of_not_upper (c : Char) (h : charIsUpper c = false) :
    charToLower c = c := by
  unfold charToLower
  unfold charIsUpper at h
  simp only [decide_eq_false_iff_not] at h
  simp [h]

theorem hasUppercase_toLowercase (s : String) : hasUppercase (toLowercase s) = false := by
  unfold hasUppercase toLowercase
  induction s.data with
  | nil => rfl
  | cons c t ih =>
    simp only [List.map_cons, List.any_cons, ih, charIsUpper_charToLower,
      Bool.false_or, Bool.or_false]

theorem map_charToLower_of_no_upper :
    ∀ l : List Char, l.any charIsUpper = false → l.map charToLower = l := by
  intro l
  induction l with
  | nil => intro _; rfl
  | cons c t ih =>
    intro h
    simp only [List.any_cons, Bool.or_eq_false_iff] at h
    simp only [List.map_cons, charToLower_of_not_upper c h.1, List.cons.injEq, true_and]
    exact ih h.2

theorem toLowercase_of_no_upper (s : String) (h : hasUppercase s = false) :
    toLowercase s = s := by
  unfold hasUppercase at h
  unfold toLowercase
  have := map_charToLower_of_no_upper s.data h
  rw [this]

theorem toLowercase_idem (s : String) : toLowercase (toLowercase s) = toLowercase s :=
  toLowercase_of_no_upper _ (hasUppercase_toLowercase s)

/-- The lowercasing helper only depends on the lowercase image of its
argument: inputs that agree after lowercasing are normalized identically. -/
theorem deserializeStringLowercase_eq_toLowercase (s : String) :
    deserializeStringLowercase s = toLowercase s := by
  unfold deserializeStringLowercase
  by_cases h : hasUppercase s
  · simp [h]
  · simp only [Bool.not_eq_true] at h
    simp [h, toLowercase_of_no_upper s h]

/-- First-match association lookup over a literal vocabulary table,
rendering a Rust `match` over string literals (the wildcard arm is the
caller's `getD` / error case). -/
def assocStr {α : Type} (s : String) : List (String × α) → Option α
  | [] => none
  | (k, v) :: t => if s = k then some v else assocStr s t

theorem assocStr_eq_some_mem {α : Type} {s : String} {v : α} :
    ∀ {l : List (String × α)}, assocStr s l = some v → (s, v) ∈ l := by
  intro l
  induction l with
  | nil => intro h; simp [assocStr] at h
  | cons p t ih =>
    intro h
    unfold assocStr at h
    by_cases hs : s = p.1
    · subst hs
      simp at h
      subst h
      exact List.mem_cons_self _ _
    · simp [hs] at h
      exact List.mem_cons_of_mem _ (ih h)

theorem assocStr_eq_none_of_not_mem {α : Type} {s : String} {l : List (String × α)}
    (h : s ∉ l.map Prod.fst) : assocStr s l = none := by
  induction l with
  | nil => rfl
  | cons p t ih =>
    simp only [List.map_cons, List.mem_cons] at h
    push_neg at h
    unfold assocStr
    simp only [h.1, if_false]
    exact ih h.2

/-- A property holding of every table pair holds of every successful
lookup. -/
theorem assocStr_forall {α : Type} (P : String → α → Prop) :
    ∀ l : List (String × α), (∀ p ∈ l, P p.1 p.2) →
      ∀ s v, assocStr s l = some v → P s v := by
  intro l
  induction l with
  | nil => intro _ s v h; cases h
  | cons p t ih =>
    intro hall s v h
    unfold assocStr at h
    by_cases hs : s = p.1
    · subst hs
      simp only [if_true] at h
      cases h
      exact hall p (List.mem_cons_self _ _)
    · simp only [hs, if_false] at h
      exact ih (fun q hq => hall q (List.mem_cons_of_mem _ hq)) s v h

/-!
## Open enumerations

`Role` (lib.rs 147-206): eleven known variants plus the catch-all
`Unknown(String)`. Its hand-written `Deserialize` matches the raw input
string case-sensitively (note the `"biilling"` typo for `Billing`); the
derived `Serialize` (with `rename_all = "lowercase"`) emits a plain JSON
string for unit variants and an externally tagged one-field object
`{"unknown": s}` for the catch-all newtype variant.
-/

inductive Role where
  | Registrant | Technical | Administrative | Abuse | Billing | Registrar
  | Reseller | Sponsor | Proxy | Notifications | Noc
  | Unknown (s : String)
deriving DecidableEq

/-- The match arms of `Role`'s `Deserialize` impl (lib.rs 182-194), in
source order; the wildcard arm is the `getD` in `Role.fromWireString`. -/
def roleTable : List (String × Role) :=
  [("registrant", .Registrant), ("technical", .Technical),
   ("administrative", .Administrative), ("abuse", .Abuse),
   ("biilling", .Billing), ("registrar", .Registrar), ("reseller", .Reseller),
   ("sponsor", .Sponsor), ("proxy", .Proxy), ("notifications", .Notifications),
   ("noc", .Noc)]

/-- Embedding of `Role::deserialize` after `String::deserialize`: total,
case-sensitive table match with the raw string preserved in the catch-all. -/
def Role.fromWireString (s : String) : Role := (assocStr s roleTable).getD (.Unknown s)

/-- Derived `Serialize` for `Role` (`rename_all = "lowercase"`): unit
variants as strings, the newtype catch-all as an externally tagged object. -/
def Role.serializeJson : Role → Json
  | .Registrant => .str "registrant"
  | .Technical => .str "technical"
  | .Administrative => .str "administrative"
  | .Abuse => .str "abuse"
  | .Billing => .str "billing"
  | .Registrar => .str "registrar"
  | .Reseller => .str "reseller"
  | .Sponsor => .str "sponsor"
  | .Proxy => .str "proxy"
  | .Notifications => .str "notifications"
  | .Noc => .str "noc"
  | .Unknown s => .obj [("unknown", .str s)]

/-- Json-level `Role` deserializer: `String::deserialize` then the total
string-level classification; only a non-string input can fail. -/
def decodeRoleJson : Json → Except DecErr Role
  | .str s => .ok (Role.fromWireString s)
  | _ => .error (.invalidType "non-string" "a string")

/-!
`Status` (lib.rs 402-515): 36 known variants (including the non-standard
`Ok` for `"ok"`) plus catch-all `Unknown(String)`. Deserialization goes
through `#[serde(from = "String")]` and `From<String> for Status`, again a
case-sensitive match on the raw string. Serialization is derived
(`rename_all = "lowercase"` plus explicit multi-word renames).
-/

inductive Status where
  | Validated | RenewProhibited | UpdateProhibited | TransferProhibited
  | DeleteProhibited | Proxy | Private | Removed | Obscured | Associated
  | Active | Inactive | Locked | PendingCreate | PendingRenew
  | PendingTransfer | PendingUpdate | PendingDelete | AddPeriod
  | AutoRenewPeriod | ClientDeleteProhibited | ClientHold
  | ClientRenewProhibited | ClientTransferProhibited | ClientUpdateProhibited
  | PendingRestore | RedemptionPeriod | RenewPeriod | ServerDeleteProhibited
  | ServerRenewProhibited | ServerTransferProhibited | ServerUpdateProhibited
  | ServerHold | TransferPeriod
  | Unknown (s : String)
  | Ok
deriving DecidableEq

/-- The match arms of `From<String> for Status` (lib.rs 475-513), in
source order. -/
def statusTable : List (String × Status) :=
  [("validated", .Validated), ("renew prohibited", .RenewProhibited),
   ("update prohibited", .UpdateProhibited),
   ("transfer prohibited", .TransferProhibited),
   ("delete prohibited", .DeleteProhibited), ("proxy", .Proxy),
   ("private", .Private), ("removed", .Removed), ("obscured", .Obscured),
   ("associated", .Associated), ("active", .Active), ("inactive", .Inactive),
   ("locked", .Locked), ("pending create", .PendingCreate),
   ("pending renew", .PendingRenew), ("pending transfer", .PendingTransfer),
   ("pending update", .PendingUpdate), ("pending delete", .PendingDelete),
   ("add period", .AddPeriod), ("auto renew period", .AutoRenewPeriod),
   ("client delete prohibited", .ClientDeleteProhibited),
   ("client hold", .ClientHold),
   ("client renew prohibited", .ClientRenewProhibited),
   ("client transfer prohibited", .ClientTransferProhibited),
   ("client update prohibited", .ClientUpdateProhibited),
   ("pending restore", .PendingRestore),
   ("redemption period", .RedemptionPeriod), ("renew period", .RenewPeriod),
   ("server delete prohibited", .ServerDeleteProhibited),
   ("server renew prohibited", .ServerRenewProhibited),
   ("server transfer prohibited", .ServerTransferProhibited),
   ("server update prohibited", .ServerUpdateProhibited),
   ("server hold", .ServerHold), ("transfer period", .TransferPeriod),
   ("ok", .Ok)]

/-- Embedding of `From<String> for Status` (total, case-sensitive). -/
def Status.fromString (s : String) : Status := (assocStr s statusTable).getD (.Unknown s)

/-- Derived `Serialize` for `Status` with the serde renames of lib.rs. -/
def Status.serializeJson : Status → Json
  | .Validated => .str "validated"
  | .RenewProhibited => .str "renew prohibited"
  | .UpdateProhibited => .str "update prohibited"
  | .TransferProhibited => .str "transfer prohibited"
  | .DeleteProhibited => .str "delete prohibited"
  | .Proxy => .str "proxy"
  | .Private => .str "private"
  | .Removed => .str "removed"
  | .Obscured => .str "obscured"
  | .Associated => .str "associated"
  | .Active => .str "active"
  | .Inactive => .str "inactive"
  | .Locked => .str "locked"
  | .PendingCreate => .str "pending create"
  | .PendingRenew => .str "pending renew"
  | .PendingTransfer => .str "pending transfer"
  | .PendingUpdate => .str "pending update"
  | .PendingDelete => .str "pending delete"
  | .AddPeriod => .str "add period"
  | .AutoRenewPeriod => .str "auto renew period"
  | .ClientDeleteProhibited => .str "client delete prohibited"
  | .ClientHold => .str "client hold"
  | .ClientRenewProhibited => .str "client renew prohibited"
  | .ClientTransferProhibited => .str "client transfer prohibited"
  | .ClientUpdateProhibited => .str "client update prohibited"
  | .PendingRestore => .str "pending restore"
  | .RedemptionPeriod => .str "redemption period"
  | .RenewPeriod => .str "renew period"
  | .ServerDeleteProhibited => .str "server delete prohibited"
  | .ServerRenewProhibited => .str "server renew prohibited"
  | .ServerTransferProhibited => .str "server transfer prohibited"
  | .ServerUpdateProhibited => .str "server update prohibited"
  | .ServerHold => .str "server hold"
  | .TransferPeriod => .str "transfer period"
  | .Unknown s => .obj [("unknown", .str s)]
  | .Ok => .str "ok"

/-- Json-level `Status` deserializer (`String::deserialize` then `From`). -/
def decodeStatusJson : Json → Except DecErr Status
  | .str s => .ok (Status.fromString s)
  | _ => .error (.invalidType "non-string" "a string")

/-!
`EventAction` (lib.rs 549-608): closed set of variants, no catch-all. The
hand-written `Deserialize` first lowercases via
`deserialize_string_lowercase`, special-cases the mixed-case canonical
spelling `"last update of RDAP database"` (whose lowercased form can never
match the derived table), then defers to the derived deserializer, which
matches the renamed spellings exactly and errors on anything else.
-/

inductive EventAction where
  | Registration | Reregistration | LastChanged | Expiration | Deletion
  | Reinstantiation | Transfer | Locked | Unlocked
  | LastUpdateOfRdapDatabase | RegistrarExpiration | EnumValidationExpiration
  | DelegationSignCheck | SoftExpiration | LastCorrectDelegationSignCheck
deriving DecidableEq

/-- Canonical wire spellings of `EventAction` (the serde renames under
`rename_all = "lowercase"` plus the explicit multi-word renames); this is
both the derived serializer and the derived deserializer's vocabulary. -/
def EventAction.canonical : EventAction → String
  | .Registration => "registration"
  | .Reregistration => "reregistration"
  | .LastChanged => "last changed"
  | .Expiration => "expiration"
  | .Deletion => "deletion"
  | .Reinstantiation => "reinstantiation"
  | .Transfer => "transfer"
  | .Locked => "locked"
  | .Unlocked => "unlocked"
  | .LastUpdateOfRdapDatabase => "last update of RDAP database"
  | .RegistrarExpiration => "registrar expiration"
  | .EnumValidationExpiration => "enum validation expiration"
  | .DelegationSignCheck => "delegation sign check"
  | .SoftExpiration => "soft expiration"
  | .LastCorrectDelegationSignCheck => "last correct delegation sign check"

/-- Vocabulary table of the derived `EventAction` deserializer: exactly the
canonical spellings. (The `"last update of RDAP database"` entry is
unreachable after lowercasing, which is why lib.rs 591-594 special-cases
its lowercase form by hand.) -/
def eventActionTable : List (String × EventAction) :=
  [("registration", .Registration), ("reregistration", .Reregistration),
   ("last changed", .LastChanged), ("expiration", .Expiration),
   ("deletion", .Deletion), ("reinstantiation", .Reinstantiation),
   ("transfer", .Transfer), ("locked", .Locked), ("unlocked", .Unlocked),
   ("last update of RDAP database", .LastUpdateOfRdapDatabase),
   ("registrar expiration", .RegistrarExpiration),
   ("enum validation expiration", .EnumValidationExpiration),
   ("delegation sign check", .DelegationSignCheck),
   ("soft expiration", .SoftExpiration),
   ("last correct delegation sign check", .LastCorrectDelegationSignCheck)]

/-- Embedding of `EventAction::deserialize` (lib.rs 585-599) after
`String::deserialize`: lowercase, special-case the RDAP spelling, then the
derived exact-match table; `none` is the derived unknown-variant error. -/
def EventAction.fromWireString (s : String) : Option EventAction :=
  let l := deserializeStringLowercase s
  if l = "last update of rdap database" then some .LastUpdateOfRdapDatabase
  else assocStr l eventActionTable

/-- Json-level `EventAction` deserializer. -/
def decodeEventActionJson : Json → Except DecErr EventAction
  | .str s =>
    match EventAction.fromWireString s with
    | some a => .ok a
    | none => .error (.unknownVariant (deserializeStringLowercase s))
  | _ => .error (.invalidType "non-string" "a string")

/-!
`NoticeOrRemarkType` (lib.rs 625-674): closed set of variants, no
catch-all. Hand-written `Deserialize` lowercases, special-cases the `lat`
registry's trailing-dot typo `"object redacted due to authorization."`,
then defers to the derived exact-match deserializer.
-/

inductive NoticeOrRemarkType where
  | ResultSetTruncatedDueToAuthorization
  | ResultSetTruncatedDueToExcessiveLoad
  | ResultSetTruncatedDueToUnexplainableReasons
  | ObjectTruncatedDueToAuthorization
  | ObjectTruncatedDueToExcessiveLoad
  | ObjectTruncatedDueToUnexplainableReasons
  | ObjectRedactedDueToAuthorization
  | ObjectTruncatedDueToServerPolicy
  | ResponseTruncatedDueToAuthorization
deriving DecidableEq

/-- Canonical wire spellings of `NoticeOrRemarkType` (the explicit serde
renames, all lowercase). -/
def NoticeOrRemarkType.canonical : NoticeOrRemarkType → String
  | .ResultSetTruncatedDueToAuthorization => "result set truncated due to authorization"
  | .ResultSetTruncatedDueToExcessiveLoad => "result set truncated due to excessive load"
  | .ResultSetTruncatedDueToUnexplainableReasons => "result set truncated due to unexplainable reasons"
  | .ObjectTruncatedDueToAuthorization => "object truncated due to authorization"
  | .ObjectTruncatedDueToExcessiveLoad => "object truncated due to excessive load"
  | .ObjectTruncatedDueToUnexplainableReasons => "object truncated due to unexplainable reasons"
  | .ObjectRedactedDueToAuthorization => "object redacted due to authorization"
  | .ObjectTruncatedDueToServerPolicy => "object truncated due to server policy"
  | .ResponseTruncatedDueToAuthorization => "response truncated due to authorization"

/-- Vocabulary table of the derived `NoticeOrRemarkType` deserializer. -/
def noticeOrRemarkTypeTable : List (String × NoticeOrRemarkType) :=
  [("result set truncated due to authorization", .ResultSetTruncatedDueToAuthorization),
   ("result set truncated due to excessive load", .ResultSetTruncatedDueToExcessiveLoad),
   ("result set truncated due to unexplainable reasons", .ResultSetTruncatedDueToUnexplainableReasons),
   ("object truncated due to authorization", .ObjectTruncatedDueToAuthorization),
   ("object truncated due to excessive load", .ObjectTruncatedDueToExcessiveLoad),
   ("object truncated due to unexplainable reasons", .ObjectTruncatedDueToUnexplainableReasons),
   ("object redacted due to authorization", .ObjectRedactedDueToAuthorization),
   ("object truncated due to server policy", .ObjectTruncatedDueToServerPolicy),
   ("response truncated due to authorization", .ResponseTruncatedDueToAuthorization)]

/-- Embedding of `NoticeOrRemarkType::deserialize` (lib.rs 652-665):
lowercase, special-case the trailing-dot typo, then exact table match. -/
def NoticeOrRemarkType.fromWireString (s : String) : Option NoticeOrRemarkType :=
  let l := deserializeStringLowercase s
  if l = "object redacted due to authorization." then some .ObjectRedactedDueToAuthorization
  else assocStr l noticeOrRemarkTypeTable

/-- Json-level `NoticeOrRemarkType` deserializer. -/
def decodeNoticeOrRemarkTypeJson : Json → Except DecErr NoticeOrRemarkType
  | .str s =>
    match NoticeOrRemarkType.fromWireString s with
    | some a => .ok a
    | none => .error (.unknownVariant (deserializeStringLowercase s))
  | _ => .error (.invalidType "non-string" "a string")

/-!
`JCardItemDataType` (lib.rs 222-261): closed set of variants with
`rename_all = "kebab-case"` (the `Unknown` variant is the literal RFC 7095
value `"unknown"`, not a catch-all). Hand-written `Deserialize` lowercases
then defers to the derived exact-match deserializer.
-/

inductive JCardItemDataType where
  | Text | TextList | DateList | TimeList | DateTimeList | DateAndOrTimeList
  | TimestampList | Boolean | IntegerList | FloatList | Uri | UtcOffset
  | LanguageTag | IanaValuespec | Unknown
deriving DecidableEq

/-- Canonical kebab-case wire spellings of `JCardItemDataType`. -/
def JCardItemDataType.canonical : JCardItemDataType → String
  | .Text => "text"
  | .TextList => "text-list"
  | .DateList => "date-list"
  | .TimeList => "time-list"
  | .DateTimeList => "date-time-list"
  | .DateAndOrTimeList => "date-and-or-time-list"
  | .TimestampList => "timestamp-list"
  | .Boolean => "boolean"
  | .IntegerList => "integer-list"
  | .FloatList => "float-list"
  | .Uri => "uri"
  | .UtcOffset => "utc-offset"
  | .LanguageTag => "language-tag"
  | .IanaValuespec => "iana-valuespec"
  | .Unknown => "unknown"

/-- Vocabulary table of the derived `JCardItemDataType` deserializer. -/
def jcardItemDataTypeTable : List (String × JCardItemDataType) :=
  [("text", .Text), ("text-list", .TextList), ("date-list", .DateList),
   ("time-list", .TimeList), ("date-time-list", .DateTimeList),
   ("date-and-or-time-list", .DateAndOrTimeList),
   ("timestamp-list", .TimestampList), ("boolean", .Boolean),
   ("integer-list", .IntegerList), ("float-list", .FloatList), ("uri", .Uri),
   ("utc-offset", .UtcOffset), ("language-tag", .LanguageTag),
   ("iana-valuespec", .IanaValuespec), ("unknown", .Unknown)]

/-- Embedding of `JCardItemDataType::deserialize` (lib.rs 244-252):
lowercase then exact table match; `none` is the unknown-variant error. -/
def JCardItemDataType.fromWireString (s : String) : Option JCardItemDataType :=
  assocStr (deserializeStringLowercase s) jcardItemDataTypeTable

/-- Json-level `JCardItemDataType` deserializer. -/
def decodeJCardItemDataTypeJson : Json → Except DecErr JCardItemDataType
  | .str s =>
    match JCardItemDataType.fromWireString s with
    | some a => .ok a
    | none => .error (.unknownVariant (deserializeStringLowercase s))
  | _ => .error (.invalidType "non-string" "a string")

/-!
## CountryCode (lib.rs 50-120)

Stored as the two bytes of the input, ASCII-uppercased. `from_str` checks
`!bytes.is_ascii() || bytes.len() != 2` on the UTF-8 bytes of the string.
-/

/-- UTF-8 encoding of one scalar value (model of Rust `str::as_bytes`,
one character's worth). -/
def charUtf8Bytes (c : Char) : List Nat :=
  let n := c.toNat
  if n < 0x80 then [n]
  else if n < 0x800 then
    [0xC0 + n / 0x40, 0x80 + n % 0x40]
  else if n < 0x10000 then
    [0xE0 + n / 0x1000, 0x80 + n / 0x40 % 0x40, 0x80 + n % 0x40]
  else
    [0xF0 + n / 0x40000, 0x80 + n / 0x1000 % 0x40, 0x80 + n / 0x40 % 0x40,
     0x80 + n % 0x40]

/-- UTF-8 bytes of a string (model of Rust `str::as_bytes`). -/
def stringUtf8Bytes (s : String) : List Nat := s.data.flatMap charUtf8Bytes

/-- Model of Rust `u8::to_ascii_uppercase`. -/
def asciiUpperByte (b : Nat) : Nat := if 97 ≤ b ∧ b ≤ 122 then b - 32 else b

/-- Two stored bytes of a country code (`CountryCode([u8; 2])`). -/
structure CountryCode where
  b0 : Nat
  b1 : Nat
deriving DecidableEq

/-- Embedding of `CountryCode::from_str` (lib.rs 59-68): reject unless the
UTF-8 bytes are all ASCII and exactly two; store both bytes
ASCII-uppercased. -/
def CountryCode.from_str (s : String) : Except String CountryCode :=
  let bytes := stringUtf8Bytes s
  if ¬ (bytes.all fun b => b ≤ 127) ∨ bytes.length ≠ 2 then
    .error "string is not two letter ascii"
  else
    .ok ⟨asciiUpperByte (bytes.getD 0 0), asciiUpperByte (bytes.getD 1 0)⟩

/-- `Serialize for CountryCode`: the stored two bytes as a string. -/
def CountryCode.serializeJson (c : CountryCode) : Json :=
  .str ⟨[Char.ofNat c.b0, Char.ofNat c.b1]⟩

/-- `Deserialize for CountryCode` (lib.rs 94-120): expect a string, run
`from_str`, report failures as `invalid_value` naming the input. -/
def decodeCountryCodeJson : Json → Except DecErr CountryCode
  | .str s =>
    match CountryCode.from_str s with
    | .ok c => .ok c
    | .error _ => .error (.invalidValue s "expecting a two letters country code")
  | _ => .error (.invalidType "non-string" "a string")

/-!
## Error code (lib.rs 974-1008)

`deserialize_error_code` accepts a JSON unsigned integer (checked through
`u16::try_from`) or a JSON string (parsed with `u16::from_str`, which
allows an optional leading plus sign before the digits).
-/

/-- Decimal value of a digit list; `none` on a non-digit or when the value
overflows `u16` (Rust reports overflow as a parse error too). -/
def digitsToU16 (l : List Char) : Option Nat :=
  l.foldlM
    (fun acc c =>
      if c.isDigit then
        let v := acc * 10 + (c.toNat - 48)
        if v ≤ 65535 then some v else none
      else none)
    0

/-- Model of Rust `u16::from_str`: an optional leading `'+'`, then one or
more decimal digits, value at most 65535. -/
def parseU16Str (s : String) : Option Nat :=
  match s.data with
  | [] => none
  | '+' :: rest => if rest.isEmpty then none else digitsToU16 rest
  | l => digitsToU16 l

/-- Embedding of `deserialize_error_code`: `visit_u64` for unsigned JSON
integers (range-checked), `visit_str` for strings, and the visitor's
default `invalid_type` error for every other JSON shape. -/
def deserialize_error_code : Json → Except DecErr Nat
  | .num n =>
    if 0 ≤ n then
      if n ≤ 65535 then .ok n.toNat
      else .error (.invalidValue (toString n) "an error code")
    else .error (.invalidType "integer" "an error code as string or number")
  | .str s =>
    match parseU16Str s with
    | some v => .ok v
    | none => .error (.invalidValue s "an error code")
  | _ => .error (.invalidType "non-number" "an error code as string or number")

/-!
## Timestamp codec (lib.rs 23-48)

`deserialize_datetime` tries, in order: chrono's RFC 3339 parser; if the
string contains `'T'`, `Utc.datetime_from_str` with `"%Y-%m-%dT%H:%M:%S"`
and then `DateTime::parse_from_str` with `"%Y-%m-%dT%H:%M:%SZ%z"`;
otherwise `Utc.datetime_from_str` with `"%Y-%m-%d %H:%M:%S"`. The final
error is mapped through `serde::de::Error::custom`, carrying the chrono
parse error's static display text. The model below renders chrono's
format machinery: numeric items trim leading whitespace and read up to
the field width in digits, literal items match one exact character, the
space item skips whitespace, and the parse fails with "trailing input"
when characters remain after all items.
-/

/-- chrono `ParseErrorKind` with its `Display` texts. -/
inductive ChronoError where
  | outOfRange | impossible | notEnough | invalid | tooShort | tooLong | badFormat
deriving DecidableEq

/-- chrono's static error messages: none of them embeds the input string. -/
def ChronoError.message : ChronoError → String
  | .outOfRange => "input is out of range"
  | .impossible => "no possible date and time matching input"
  | .notEnough => "input is not enough for unique date and time"
  | .invalid => "input contains invalid characters"
  | .tooShort => "premature end of input"
  | .tooLong => "trailing input"
  | .badFormat => "bad or unsupported format string"

/-- A timezone-aware instant as chrono's `DateTime<FixedOffset>` presents
it: local wall-clock fields plus the fixed offset in seconds. -/
structure RDateTime where
  year : Int
  month : Nat
  day : Nat
  hour : Nat
  minute : Nat
  second : Nat
  nano : Nat
  offsetSeconds : Int
deriving DecidableEq

/-- Split off up to `max` leading decimal digits. -/
def takeDigits : Nat → List Char → (List Char × List Char)
  | 0, cs => ([], cs)
  | _, [] => ([], [])
  | n + 1, c :: cs =>
    if c.isDigit then
      let p := takeDigits n cs
      (c :: p.1, p.2)
    else ([], c :: cs)

/-- Decimal value of a digit list. -/
def digitsVal (l : List Char) : Nat := l.foldl (fun acc c => acc * 10 + (c.toNat - 48)) 0

/-- chrono `scan::number(s, 1, max)`: at least one, at most `max` digits. -/
def scanNumber (max : Nat) (cs : List Char) : Except ChronoError (Nat × List Char) :=
  if cs.isEmpty then .error .tooShort
  else
    let p := takeDigits max cs
    if p.1.isEmpty then .error .invalid else .ok (digitsVal p.1, p.2)

/-- chrono numeric item: trim leading whitespace, then scan the digits. -/
def numericItem (max : Nat) (cs : List Char) : Except ChronoError (Nat × List Char) :=
  scanNumber max (cs.dropWhile Char.isWhitespace)

/-- chrono `%Y`: trimmed; optional sign (then up to 18 digits) or up to
four digits. -/
def yearItem (cs : List Char) : Except ChronoError (Int × List Char) :=
  let cs := cs.dropWhile Char.isWhitespace
  match cs with
  | '-' :: rest => (scanNumber 18 rest).map fun p => (-(p.1 : Int), p.2)
  | '+' :: rest => (scanNumber 18 rest).map fun p => ((p.1 : Int), p.2)
  | _ => (scanNumber 4 cs).map fun p => ((p.1 : Int), p.2)

/-- chrono literal item: one exact character. -/
def litItem (c : Char) (cs : List Char) : Except ChronoError (List Char) :=
  match cs with
  | [] => .error .tooShort
  | x :: rest => if x = c then .ok rest else .error .invalid

/-- Exactly two decimal digits (chrono's offset digit scanner). -/
def twoDigits (cs : List Char) : Except ChronoError (Nat × List Char) :=
  match cs with
  | c1 :: c2 :: rest =>
    if c1.isDigit ∧ c2.isDigit then
      .ok ((c1.toNat - 48) * 10 + (c2.toNat - 48), rest)
    else .error .invalid
  | _ => .error .tooShort

/-- chrono `timezone_offset`: a mandatory sign, two-digit hours, an
optional colon, two-digit minutes; result in seconds. -/
def offsetItem (cs : List Char) : Except ChronoError (Int × List Char) :=
  let body : List Char → Except ChronoError (Nat × List Char) := fun rest => do
    let (h, rest) ← twoDigits rest
    let rest := match rest with
      | ':' :: r => r
      | r => r
    let (m, rest) ← twoDigits rest
    .ok (h * 3600 + m * 60, rest)
  match cs with
  | '+' :: rest => (body rest).map fun p => ((p.1 : Int), p.2)
  | '-' :: rest => (body rest).map fun p => (-(p.1 : Int), p.2)
  | [] => .error .tooShort
  | _ => .error .invalid

/-- chrono `timezone_offset_zulu` (the RFC 3339 offset): `Z`/`z` or a
signed numeric offset. -/
def offsetZuluItem (cs : List Char) : Except ChronoError (Int × List Char) :=
  match cs with
  | 'Z' :: rest => .ok (0, rest)
  | 'z' :: rest => .ok (0, rest)
  | cs => offsetItem cs

/-- chrono `Fixed::Nanosecond` (`%.f`): nothing, or a dot followed by at
least one digit; the first nine digits are significant. -/
def fractionItem (cs : List Char) : Except ChronoError (Nat × List Char) :=
  match cs with
  | '.' :: rest =>
    let p := takeDigits 9 rest
    if p.1.isEmpty then .error .invalid
    else
      let nano := digitsVal p.1 * 10 ^ (9 - p.1.length)
      .ok (nano, p.2.dropWhile Char.isDigit)
  | cs => .ok (0, cs)

/-- Gregorian leap year. -/
def isLeapYear (y : Int) : Bool :=
  y % 4 = 0 ∧ (y % 100 ≠ 0 ∨ y % 400 = 0)

/-- Days in a month. -/
def daysInMonth (y : Int) (m : Nat) : Nat :=
  match m with
  | 1 => 31 | 3 => 31 | 5 => 31 | 7 => 31 | 8 => 31 | 10 => 31 | 12 => 31
  | 4 => 30 | 6 => 30 | 9 => 30 | 11 => 30
  | 2 => if isLeapYear y then 29 else 28
  | _ => 0

/-- chrono `Parsed::to_datetime`-style validation: the parsed fields must
form a real calendar date and time, and the offset must be less than a
day in magnitude (`FixedOffset::east_opt`). -/
def mkDateTime (y : Int) (mo d h mi s nano : Nat) (off : Int) :
    Except ChronoError RDateTime :=
  if 1 ≤ mo ∧ mo ≤ 12 ∧ 1 ≤ d ∧ d ≤ daysInMonth y mo ∧ h ≤ 23 ∧ mi ≤ 59 ∧ s ≤ 59 then
    if -86400 < off ∧ off < 86400 then .ok ⟨y, mo, d, h, mi, s, nano, off⟩
    else .error .outOfRange
  else .error .impossible

/-- Shared date-and-time core `%Y-%m-%d` `sep` `%H:%M:%S` where `sep`
consumes the separator. -/
def parseYmdHms (sep : List Char → Except ChronoError (List Char))
    (cs : List Char) :
    Except ChronoError ((Int × Nat × Nat × Nat × Nat × Nat) × List Char) := do
  let (y, cs) ← yearItem cs
  let cs ← litItem '-' cs
  let (mo, cs) ← numericItem 2 cs
  let cs ← litItem '-' cs
  let (d, cs) ← numericItem 2 cs
  let cs ← sep cs
  let (h, cs) ← numericItem 2 cs
  let cs ← litItem ':' cs
  let (mi, cs) ← numericItem 2 cs
  let cs ← litItem ':' cs
  let (s, cs) ← numericItem 2 cs
  .ok ((y, mo, d, h, mi, s), cs)

/-- chrono `DateTime::parse_from_rfc3339`: date, `T` separator, time,
optional fraction, `Z` or signed offset; the whole input must be consumed. -/
def parseRfc3339 (str : String) : Except ChronoError RDateTime := do
  let (f, cs) ← parseYmdHms (litItem 'T') str.data
  let (nano, cs) ← fractionItem cs
  let (off, cs) ← offsetZuluItem cs
  if cs.isEmpty then
    mkDateTime f.1 f.2.1 f.2.2.1 f.2.2.2.1 f.2.2.2.2.1 f.2.2.2.2.2 nano off
  else .error .tooLong

/-- `Utc.datetime_from_str(s, "%Y-%m-%dT%H:%M:%S")` followed by
`with_timezone(&Utc.fix())`: no offset in the grammar, interpreted as UTC. -/
def parseDatetimeT (str : String) : Except ChronoError RDateTime := do
  let (f, cs) ← parseYmdHms (litItem 'T') str.data
  if cs.isEmpty then
    mkDateTime f.1 f.2.1 f.2.2.1 f.2.2.2.1 f.2.2.2.2.1 f.2.2.2.2.2 0 0
  else .error .tooLong

/-- `DateTime::parse_from_str(s, "%Y-%m-%dT%H:%M:%SZ%z")`: a literal `Z`
followed by a numeric offset; the offset is authoritative and the parsed
wall-clock fields are local to it. -/
def parseDatetimeTZz (str : String) : Except ChronoError RDateTime := do
  let (f, cs) ← parseYmdHms (litItem 'T') str.data
  let cs ← litItem 'Z' cs
  let (off, cs) ← offsetItem cs
  if cs.isEmpty then
    mkDateTime f.1 f.2.1 f.2.2.1 f.2.2.2.1 f.2.2.2.2.1 f.2.2.2.2.2 0 off
  else .error .tooLong

/-- `Utc.datetime_from_str(s, "%Y-%m-%d %H:%M:%S")`: the space item skips
whitespace; interpreted as UTC. -/
def parseDatetimeSpace (str : String) : Except ChronoError RDateTime := do
  let (f, cs) ← parseYmdHms (fun cs => .ok (cs.dropWhile Char.isWhitespace)) str.data
  if cs.isEmpty then
    mkDateTime f.1 f.2.1 f.2.2.1 f.2.2.2.1 f.2.2.2.2.1 f.2.2.2.2.2 0 0
  else .error .tooLong

/-- Rust `string.contains('T')`. -/
def stringContainsT (s : String) : Bool := s.data.contains 'T'

/-- Embedding of `deserialize_datetime` (lib.rs 30-48) after
`String::deserialize`: the `or_else` fallback chain, with the last
attempted grammar's error passed to `serde::de::Error::custom`. -/
def deserialize_datetime (s : String) : Except DecErr RDateTime :=
  match parseRfc3339 s with
  | .ok dt => .ok dt
  | .error _ =>
    if stringContainsT s then
      match parseDatetimeT s with
      | .ok dt => .ok dt
      | .error _ =>
        match parseDatetimeTZz s with
        | .ok dt => .ok dt
        | .error e => .error (.custom e.message)
    else
      match parseDatetimeSpace s with
      | .ok dt => .ok dt
      | .error e => .error (.custom e.message)

/-- Two-digit zero-padded decimal. -/
def pad2 (n : Nat) : String := if n < 10 then "0" ++ toString n else toString n

/-- Four-digit zero-padded year (all claim instants have years in
0..9999, chrono's unexpanded range). -/
def pad4 (y : Int) : String :=
  let n := y.toNat
  if n < 10 then "000" ++ toString n
  else if n < 100 then "00" ++ toString n
  else if n < 1000 then "0" ++ toString n
  else toString n

/-- chrono `DateTime::to_rfc3339`: date, `T`, time, fraction only when
nonzero (3, 6 or 9 digits), and the resolved offset as `±HH:MM`. -/
def toRfc3339 (dt : RDateTime) : String :=
  let frac :=
    if dt.nano = 0 then ""
    else if dt.nano % 1000000 = 0 then "." ++ pad2 (dt.nano / 10000000) ++ toString (dt.nano / 1000000 % 10)
    else if dt.nano % 1000 = 0 then "." ++ toString (dt.nano / 1000)
    else "." ++ toString dt.nano
  let a := dt.offsetSeconds.natAbs
  let sign := if dt.offsetSeconds < 0 then "-" else "+"
  pad4 dt.year ++ "-" ++ pad2 dt.month ++ "-" ++ pad2 dt.day ++ "T" ++
    pad2 dt.hour ++ ":" ++ pad2 dt.minute ++ ":" ++ pad2 dt.second ++ frac ++
    sign ++ pad2 (a / 3600) ++ ":" ++ pad2 (a % 3600 / 60)

deriving instance DecidableEq for Except

/-!
## Contact card (JCard) codec (lib.rs 215-357)

`JCardItem` decodes from a positional JSON array: property name (string,
forced lowercase), parameter map (order-preserving string-keyed map of
arbitrary values), type identifier (open-enum string), then one or more
opaque trailing values. The parameter map is modelled as an ordered
association list. Modelled from the spec: the crate's serde_json `Map` is
insertion-order preserving (the `preserve_order` feature chosen in the
crate manifest, which is not part of the sources here; spec section 3
states "parameter-map ... insertion order preserved").
-/

inductive JCardType where
  | Vcard
deriving DecidableEq

structure JCardItem where
  property_name : String
  parameters : List (String × Json)
  type_identifier : JCardItemDataType
  values : List Json

structure JCard where
  typ : JCardType
  items : List JCardItem

/-- Derived `Deserialize` for `JCardType` (`rename_all = "lowercase"`):
only the exact string `"vcard"`. -/
def decodeJCardTypeJson : Json → Except DecErr JCardType
  | .str s => if s = "vcard" then .ok .Vcard else .error (.unknownVariant s)
  | _ => .error (.invalidType "non-string" "a string")

/-- Embedding of `JCardItemVisitor::visit_seq` (lib.rs 285-317): the
element at each position is decoded as the visitor requests it, a missing
element at positions 0-2 (and an empty tail at position 3) is
`invalid_length(n, "at least four elements")`, and the property name is
lowercased exactly as `deserialize_string_lowercase` does. -/
def decodeJCardItem : Json → Except DecErr JCardItem
  | .arr l =>
    match l with
    | [] => .error (.invalidLength 0 "at least four elements")
    | j0 :: rest0 => do
      let name0 ←
        match j0 with
        | .str s => Except.ok s
        | _ => Except.error (DecErr.invalidType "non-string" "a string")
      let name := deserializeStringLowercase name0
      match rest0 with
      | [] => .error (.invalidLength 1 "at least four elements")
      | j1 :: rest1 => do
        let params ←
          match j1 with
          | .obj m => Except.ok m
          | _ => Except.error (DecErr.invalidType "non-map" "a map")
        match rest1 with
        | [] => .error (.invalidLength 2 "at least four elements")
        | j2 :: values => do
          let tid ← decodeJCardItemDataTypeJson j2
          if values.isEmpty then .error (.invalidLength 3 "at least four elements")
          else .ok ⟨name, params, tid, values⟩
  | _ => .error (.invalidType "non-sequence" "a sequence")

/-- `Serialize for JCardItem` (lib.rs 324-338): rebuild the positional
array; the type identifier uses its canonical spelling. -/
def encodeJCardItem (it : JCardItem) : Json :=
  .arr (.str it.property_name :: .obj it.parameters ::
    .str (JCardItemDataType.canonical it.type_identifier) :: it.values)

/-- Fallibly decode every element of a list. -/
def decodeListWith {α : Type} (dec : Json → Except DecErr α) :
    List Json → Except DecErr (List α)
  | [] => .ok []
  | j :: t => do
    let a ← dec j
    let r ← decodeListWith dec t
    .ok (a :: r)

/-- Derived `Deserialize` for the two-element tuple struct `JCard`: a JSON
array of exactly a type tag and an item array. -/
def decodeJCard : Json → Except DecErr JCard
  | .arr l =>
    match l with
    | [jt, jitems] => do
      let t ← decodeJCardTypeJson jt
      let items ←
        match jitems with
        | .arr li => decodeListWith decodeJCardItem li
        | _ => Except.error (DecErr.invalidType "non-sequence" "a sequence")
      .ok ⟨t, items⟩
    | _ => .error (.invalidLength l.length "tuple struct JCard with 2 elements")
  | _ => .error (.invalidType "non-sequence" "a sequence")

/-- Derived `Serialize` for `JCard`. -/
def encodeJCard (jc : JCard) : Json :=
  .arr [.str "vcard", .arr (jc.items.map encodeJCardItem)]

/-!
## IP addresses

`IpNetwork` and `IpAddresses` carry `std::net` address types, which serde
decodes from their textual forms via `FromStr` and encodes via `Display`.
The parsers below follow Rust's `core::net::parser`: IPv4 octets are one
to three decimal digits without leading zeros, at most 255; IPv6 is up to
eight groups of one to four hex digits with at most one `::` elision and
an optional trailing embedded IPv4 pair.
-/

structure Ipv4Addr where
  o1 : Nat
  o2 : Nat
  o3 : Nat
  o4 : Nat
deriving DecidableEq

/-- Eight 16-bit groups. -/
structure Ipv6Addr where
  groups : List Nat
deriving DecidableEq

inductive IpAddr where
  | v4 (x : Ipv4Addr)
  | v6 (x : Ipv6Addr)
deriving DecidableEq

/-- One IPv4 octet: up to three decimal digits, no leading zero, ≤ 255. -/
def parseOctet (cs : List Char) : Option (Nat × List Char) :=
  let p := takeDigits 3 cs
  if p.1.isEmpty then none
  else if p.1.length > 1 ∧ p.1.headD '0' = '0' then none
  else
    let v := digitsVal p.1
    if v ≤ 255 then some (v, p.2) else none

/-- `a.b.c.d` with no trailing consumption requirements. -/
def parseIpv4Core (cs : List Char) : Option (Ipv4Addr × List Char) := do
  let (a, cs) ← parseOctet cs
  match cs with
  | '.' :: cs => do
    let (b, cs) ← parseOctet cs
    match cs with
    | '.' :: cs => do
      let (c, cs) ← parseOctet cs
      match cs with
      | '.' :: cs => do
        let (d, cs) ← parseOctet cs
        some (⟨a, b, c, d⟩, cs)
      | _ => none
    | _ => none
  | _ => none

/-- Rust `Ipv4Addr::from_str`: the core grammar consuming all input. -/
def parseIpv4Str (s : String) : Option Ipv4Addr :=
  match parseIpv4Core s.data with
  | some (a, []) => some a
  | _ => none

/-- ASCII hex digit test. -/
def isHexDigitChar (c : Char) : Bool :=
  c.isDigit || (97 ≤ c.toNat ∧ c.toNat ≤ 102) || (65 ≤ c.toNat ∧ c.toNat ≤ 70)

/-- Split off up to four leading hex digits. -/
def takeHexDigits : Nat → List Char → (List Char × List Char)
  | 0, cs => ([], cs)
  | _, [] => ([], [])
  | n + 1, c :: cs =>
    if isHexDigitChar c then
      let p := takeHexDigits n cs
      (c :: p.1, p.2)
    else ([], c :: cs)

/-- Hexadecimal value of a digit list. -/
def hexVal (l : List Char) : Nat :=
  l.foldl
    (fun acc c =>
      acc * 16 +
        (if c.isDigit then c.toNat - 48
         else if 97 ≤ c.toNat then c.toNat - 87 else c.toNat - 55))
    0

/-- One IPv6 group: one to four hex digits. -/
def parseHexGroup (cs : List Char) : Option (Nat × List Char) :=
  let p := takeHexDigits 4 cs
  if p.1.isEmpty then none else some (hexVal p.1, p.2)

/-- Rust `Parser::read_groups`: read up to `limit` colon-separated groups,
committing a separator only together with its group; a trailing embedded
IPv4 address is allowed while at least two slots remain and ends the run. -/
def readGroups : Nat → Bool → List Char → (List Nat × Bool × List Char)
  | 0, _, cs => ([], false, cs)
  | limit + 1, first, cs =>
    let afterSep : Option (List Char) :=
      if first then some cs
      else match cs with
        | ':' :: r => some r
        | _ => none
    match afterSep with
    | none => ([], false, cs)
    | some cs1 =>
      match (if limit + 1 ≥ 2 then parseIpv4Core cs1 else none) with
      | some (a, rest) => ([a.o1 * 256 + a.o2, a.o3 * 256 + a.o4], true, rest)
      | none =>
        match parseHexGroup cs1 with
        | some (g, rest) =>
          let r := readGroups limit false rest
          (g :: r.1, r.2.1, r.2.2)
        | none => ([], false, cs)

/-- Rust `Ipv6Addr::from_str` (`read_ipv6_addr`): a full eight-group head,
or a shorter head, a `::` elision, and a tail filling the final groups. -/
def parseIpv6Str (s : String) : Option Ipv6Addr :=
  let r := readGroups 8 true s.data
  let head := r.1
  let headIp4 := r.2.1
  let rest := r.2.2
  if head.length = 8 then
    if rest.isEmpty then some ⟨head⟩ else none
  else if headIp4 then none
  else
    match rest with
    | ':' :: ':' :: rest2 =>
      let t := readGroups (7 - head.length) true rest2
      if t.2.2.isEmpty then
        some ⟨head ++ List.replicate (8 - head.length - t.1.length) 0 ++ t.1⟩
      else none
    | _ => none

/-- Rust `IpAddr::from_str`: IPv4 first, then IPv6. -/
def parseIpAddrStr (s : String) : Option IpAddr :=
  match parseIpv4Str s with
  | some a => some (.v4 a)
  | none => (parseIpv6Str s).map .v6

/-- Rust `Display for Ipv4Addr`. -/
def displayIpv4 (a : Ipv4Addr) : String :=
  toString a.o1 ++ "." ++ toString a.o2 ++ "." ++ toString a.o3 ++ "." ++ toString a.o4

/-- Lowercase hexadecimal of a group (no leading zeros). -/
def hexStr (n : Nat) : String := Nat.toDigits 16 n |> List.asString

/-- Longest run of zeros in the group list: start index and length. -/
def longestZeroRun (gs : List Nat) : Nat × Nat :=
  let rec go (i : Nat) (gs : List Nat) (curStart curLen bestStart bestLen : Nat) :
      Nat × Nat :=
    match gs with
    | [] => if curLen > bestLen then (curStart, curLen) else (bestStart, bestLen)
    | g :: t =>
      if g = 0 then
        let curStart := if curLen = 0 then i else curStart
        go (i + 1) t curStart (curLen + 1) bestStart bestLen
      else if curLen > bestLen then go (i + 1) t 0 0 curStart curLen
      else go (i + 1) t 0 0 bestStart bestLen
  go 0 gs 0 0 0 0

/-- Rust `Display for Ipv6Addr`: the IPv4-mapped special case, otherwise
group-wise hex with the longest zero run (of length at least two)
compressed to `::`. -/
def displayIpv6 (a : Ipv6Addr) : String :=
  match a.groups with
  | [0, 0, 0, 0, 0, 0xffff, g6, g7] =>
    "::ffff:" ++ displayIpv4 ⟨g6 / 256, g6 % 256, g7 / 256, g7 % 256⟩
  | gs =>
    let r := longestZeroRun gs
    if r.2 > 1 then
      let pre := gs.take r.1
      let post := gs.drop (r.1 + r.2)
      String.intercalate ":" (pre.map hexStr) ++ "::" ++
        String.intercalate ":" (post.map hexStr)
    else String.intercalate ":" (gs.map hexStr)

def displayIpAddr : IpAddr → String
  | .v4 a => displayIpv4 a
  | .v6 a => displayIpv6 a

/-- serde decode of an `IpAddr` field: a string through `FromStr`. -/
def decodeIpAddrJson : Json → Except DecErr IpAddr
  | .str s =>
    match parseIpAddrStr s with
    | some a => .ok a
    | none => .error (.invalidValue s "IP address")
  | _ => .error (.invalidType "non-string" "a string")

def decodeIpv4Json : Json → Except DecErr Ipv4Addr
  | .str s =>
    match parseIpv4Str s with
    | some a => .ok a
    | none => .error (.invalidValue s "IPv4 address")
  | _ => .error (.invalidType "non-string" "a string")

def decodeIpv6Json : Json → Except DecErr Ipv6Addr
  | .str s =>
    match parseIpv6Str s with
    | some a => .ok a
    | none => .error (.invalidValue s "IPv6 address")
  | _ => .error (.invalidType "non-string" "a string")

/-!
## serde struct plumbing

Derived struct deserializers are modelled by field lookup over the JSON
object's association list: a missing required field is a `missing field`
error, a missing or null optional field is `none`, and unknown fields are
ignored (no record derives `deny_unknown_fields`). Duplicate keys, which
serde rejects, are assumed absent. Derived serializers emit fields in
declaration order and omit `None` options (`skip_serializing_if`).
-/

def getField : List (String × Json) → String → Option Json
  | [], _ => none
  | (k, v) :: t, name => if k = name then some v else getField t name

def reqField {α : Type} (fields : List (String × Json)) (name : String)
    (dec : Json → Except DecErr α) : Except DecErr α :=
  match getField fields name with
  | none => .error (.missingField name)
  | some j => dec j

def optField {α : Type} (fields : List (String × Json)) (name : String)
    (dec : Json → Except DecErr α) : Except DecErr (Option α) :=
  match getField fields name with
  | none => .ok none
  | some .null => .ok none
  | some j => (dec j).map some

def decodeStringJson : Json → Except DecErr String
  | .str s => .ok s
  | _ => .error (.invalidType "non-string" "a string")

def decodeBoolJson : Json → Except DecErr Bool
  | .bool b => .ok b
  | _ => .error (.invalidType "non-boolean" "a boolean")

/-- Unsigned integer decode with an upper bound (`u8`/`u16`/`u32`). -/
def decodeUIntJson (max : Nat) : Json → Except DecErr Nat
  | .num n =>
    if 0 ≤ n ∧ n ≤ (max : Int) then .ok n.toNat
    else .error (.invalidValue (toString n) "an unsigned integer in range")
  | _ => .error (.invalidType "non-number" "an unsigned integer")

def decodeArrWith {α : Type} (dec : Json → Except DecErr α) :
    Json → Except DecErr (List α)
  | .arr l => decodeListWith dec l
  | _ => .error (.invalidType "non-sequence" "a sequence")

/-- `serde_json::Value` fields are retained opaquely. -/
def decodeJsonValue : Json → Except DecErr Json := fun j => .ok j

def optPair (name : String) : Option Json → List (String × Json)
  | none => []
  | some v => [(name, v)]

/-!
## Flat metadata records (lib.rs 122-140, 208-213, 517-523, 610-622,
676-705, 785-876)
-/

structure Link where
  value : Option String
  rel : Option String
  href : String
  href_lang : Option (List String)
  title : Option String
  media : Option String
  type : Option String

def decodeLink : Json → Except DecErr Link
  | .obj fields => do
    let value ← optField fields "value" decodeStringJson
    let rel ← optField fields "rel" decodeStringJson
    let href ← reqField fields "href" decodeStringJson
    let href_lang ← optField fields "hreflang" (decodeArrWith decodeStringJson)
    let title ← optField fields "title" decodeStringJson
    let media ← optField fields "media" decodeStringJson
    let type ← optField fields "type" decodeStringJson
    .ok ⟨value, rel, href, href_lang, title, media, type⟩
  | _ => .error (.invalidType "non-map" "a map")

def encodeLink (l : Link) : Json :=
  .obj (optPair "value" (l.value.map .str) ++ optPair "rel" (l.rel.map .str) ++
    [("href", .str l.href)] ++
    optPair "hreflang" (l.href_lang.map fun v => .arr (v.map .str)) ++
    optPair "title" (l.title.map .str) ++ optPair "media" (l.media.map .str) ++
    optPair "type" ( Link.type l |>.map .str))

structure PublicId where
  type : String
  identifier : String

def decodePublicId : Json → Except DecErr PublicId
  | .obj fields => do
    let type ← reqField fields "type" decodeStringJson
    let identifier ← reqField fields "identifier" decodeStringJson
    .ok ⟨type, identifier⟩
  | _ => .error (.invalidType "non-map" "a map")

def encodePublicId (p : PublicId) : Json :=
  .obj [("type", .str ( PublicId.type p)), ("identifier", .str p.identifier)]

structure Event where
  actor : Option String
  action : EventAction
  date : RDateTime
  links : Option Link

def decodeEvent : Json → Except DecErr Event
  | .obj fields => do
    let actor ← optField fields "eventActor" decodeStringJson
    let action ← reqField fields "eventAction" decodeEventActionJson
    let date ← reqField fields "eventDate"
      (fun j => do
        let s ← decodeStringJson j
        deserialize_datetime s)
    let links ← optField fields "links" decodeLink
    .ok ⟨actor, action, date, links⟩
  | _ => .error (.invalidType "non-map" "a map")

def encodeEvent (e : Event) : Json :=
  .obj (optPair "eventActor" (e.actor.map .str) ++
    [("eventAction", .str (EventAction.canonical e.action)),
     ("eventDate", .str (toRfc3339 e.date))] ++
    optPair "links" (e.links.map encodeLink))

structure NoticeOrRemark where
  title : Option String
  type : Option NoticeOrRemarkType
  description : Option (List String)
  links : Option (List Link)

def decodeNoticeOrRemark : Json → Except DecErr NoticeOrRemark
  | .obj fields => do
    let title ← optField fields "title" decodeStringJson
    let type ← optField fields "type" decodeNoticeOrRemarkTypeJson
    let description ← optField fields "description" (decodeArrWith decodeStringJson)
    let links ← optField fields "links" (decodeArrWith decodeLink)
    .ok ⟨title, type, description, links⟩
  | _ => .error (.invalidType "non-map" "a map")

def encodeNoticeOrRemark (n : NoticeOrRemark) : Json :=
  .obj (optPair "title" (n.title.map .str) ++
    optPair "type" ( NoticeOrRemark.type n |>.map fun t => .str (NoticeOrRemarkType.canonical t)) ++
    optPair "description" (n.description.map fun v => .arr (v.map .str)) ++
    optPair "links" (n.links.map fun v => .arr (v.map encodeLink)))

structure IpAddresses where
  v4 : Option (List Ipv4Addr)
  v6 : Option (List Ipv6Addr)

def decodeIpAddresses : Json → Except DecErr IpAddresses
  | .obj fields => do
    let v4 ← optField fields "v4" (decodeArrWith decodeIpv4Json)
    let v6 ← optField fields "v6" (decodeArrWith decodeIpv6Json)
    .ok ⟨v4, v6⟩
  | _ => .error (.invalidType "non-map" "a map")

def encodeIpAddresses (a : IpAddresses) : Json :=
  .obj (optPair "v4" (a.v4.map fun v => .arr (v.map fun x => .str (displayIpv4 x))) ++
    optPair "v6" (a.v6.map fun v => .arr (v.map fun x => .str (displayIpv6 x))))

inductive IpVersion where
  | V4 | V6
deriving DecidableEq

def decodeIpVersion : Json → Except DecErr IpVersion
  | .str s =>
    if s = "v4" then .ok .V4
    else if s = "v6" then .ok .V6
    else .error (.unknownVariant s)
  | _ => .error (.invalidType "non-string" "a string")

def encodeIpVersion : IpVersion → Json
  | .V4 => .str "v4"
  | .V6 => .str "v6"

structure CidrOCidr where
  v4prefix : Option Ipv4Addr
  v6prefix : Option Ipv6Addr
  length : Nat

def decodeCidrOCidr : Json → Except DecErr CidrOCidr
  | .obj fields => do
    let v4p ← optField fields "v4prefix" decodeIpv4Json
    let v6p ← optField fields "v6prefix" decodeIpv6Json
    let length ← reqField fields "length" (decodeUIntJson 255)
    .ok ⟨v4p, v6p, length⟩
  | _ => .error (.invalidType "non-map" "a map")

def encodeCidrOCidr (c : CidrOCidr) : Json :=
  .obj (optPair "v4prefix" ( CidrOCidr.v4prefix c |>.map fun x => .str (displayIpv4 x)) ++
    optPair "v6prefix" ( CidrOCidr.v6prefix c |>.map fun x => .str (displayIpv6 x)) ++
    [("length", .num c.length)])

structure DsData where
  key_tag : Option Nat
  algorithm : Nat
  digest : String
  digest_type : Nat
  events : Option (List Event)
  links : Option (List Link)

def decodeDsData : Json → Except DecErr DsData
  | .obj fields => do
    let key_tag ← optField fields "keyTag" (decodeUIntJson 65535)
    let algorithm ← reqField fields "algorithm" (decodeUIntJson 255)
    let digest ← reqField fields "digest" decodeStringJson
    let digest_type ← reqField fields "digestType" (decodeUIntJson 255)
    let events ← optField fields "events" (decodeArrWith decodeEvent)
    let links ← optField fields "links" (decodeArrWith decodeLink)
    .ok ⟨key_tag, algorithm, digest, digest_type, events, links⟩
  | _ => .error (.invalidType "non-map" "a map")

def encodeDsData (d : DsData) : Json :=
  .obj (optPair "keyTag" (d.key_tag.map .num) ++
    [("algorithm", .num d.algorithm), ("digest", .str d.digest),
     ("digestType", .num d.digest_type)] ++
    optPair "events" (d.events.map fun v => .arr (v.map encodeEvent)) ++
    optPair "links" (d.links.map fun v => .arr (v.map encodeLink)))

structure KeyData where
  flags : Nat
  protocol : Nat
  public_key : String
  algorithm : Nat
  events : Option (List Event)
  links : Option (List Link)

def decodeKeyData : Json → Except DecErr KeyData
  | .obj fields => do
    let flags ← reqField fields "flags" (decodeUIntJson 65535)
    let protocol ← reqField fields "protocol" (decodeUIntJson 255)
    let public_key ← reqField fields "publicKey" decodeStringJson
    let algorithm ← reqField fields "algorithm" (decodeUIntJson 255)
    let events ← optField fields "events" (decodeArrWith decodeEvent)
    let links ← optField fields "links" (decodeArrWith decodeLink)
    .ok ⟨flags, protocol, public_key, algorithm, events, links⟩
  | _ => .error (.invalidType "non-map" "a map")

def encodeKeyData (k : KeyData) : Json :=
  .obj ([("flags", .num k.flags), ("protocol", .num k.protocol),
    ("publicKey", .str k.public_key), ("algorithm", .num k.algorithm)] ++
    optPair "events" (k.events.map fun v => .arr (v.map encodeEvent)) ++
    optPair "links" (k.links.map fun v => .arr (v.map encodeLink)))

structure SecureDns where
  zone_signed : Option Bool
  delegation_signed : Option Bool
  max_sig_life : Option Nat
  ds_data : Option (List DsData)
  key_data : Option (List KeyData)

def decodeSecureDns : Json → Except DecErr SecureDns
  | .obj fields => do
    let zone_signed ← optField fields "zoneSigned" decodeBoolJson
    let delegation_signed ← optField fields "delegationSigned" decodeBoolJson
    let max_sig_life ← optField fields "maxSigLife" (decodeUIntJson 4294967295)
    let ds_data ← optField fields "dsData" (decodeArrWith decodeDsData)
    let key_data ← optField fields "keyData" (decodeArrWith decodeKeyData)
    .ok ⟨zone_signed, delegation_signed, max_sig_life, ds_data, key_data⟩
  | _ => .error (.invalidType "non-map" "a map")

def encodeSecureDns (s : SecureDns) : Json :=
  .obj (optPair "zoneSigned" (s.zone_signed.map .bool) ++
    optPair "delegationSigned" (s.delegation_signed.map .bool) ++
    optPair "maxSigLife" (s.max_sig_life.map .num) ++
    optPair "dsData" (s.ds_data.map fun v => .arr (v.map encodeDsData)) ++
    optPair "keyData" (s.key_data.map fun v => .arr (v.map encodeKeyData)))

inductive DomainVariantRelation where
  | Registered | Unregistered | RegistrationRestricted | OpenRegistration
  | Conjoined
deriving DecidableEq

def domainVariantRelationTable : List (String × DomainVariantRelation) :=
  [("registered", .Registered), ("unregistered", .Unregistered),
   ("registration restricted", .RegistrationRestricted),
   ("open registration", .OpenRegistration), ("conjoined", .Conjoined)]

def DomainVariantRelation.canonical : DomainVariantRelation → String
  | .Registered => "registered"
  | .Unregistered => "unregistered"
  | .RegistrationRestricted => "registration restricted"
  | .OpenRegistration => "open registration"
  | .Conjoined => "conjoined"

def decodeDomainVariantRelation : Json → Except DecErr DomainVariantRelation
  | .str s =>
    match assocStr s domainVariantRelationTable with
    | some v => .ok v
    | none => .error (.unknownVariant s)
  | _ => .error (.invalidType "non-string" "a string")

structure VariantName where
  ldh_name : String
  unicode_name : String

def decodeVariantName : Json → Except DecErr VariantName
  | .obj fields => do
    let ldh_name ← reqField fields "ldhName" decodeStringJson
    let unicode_name ← reqField fields "unicodeName" decodeStringJson
    .ok ⟨ldh_name, unicode_name⟩
  | _ => .error (.invalidType "non-map" "a map")

def encodeVariantName (v : VariantName) : Json :=
  .obj [("ldhName", .str v.ldh_name), ("unicodeName", .str v.unicode_name)]

structure Variant where
  relation : List DomainVariantRelation
  idn_table : Option String
  names : List VariantName

def decodeVariant : Json → Except DecErr Variant
  | .obj fields => do
    let relation ← reqField fields "relation" (decodeArrWith decodeDomainVariantRelation)
    let idn_table ← optField fields "idnTable" decodeStringJson
    let names ← reqField fields "variantNames" (decodeArrWith decodeVariantName)
    .ok ⟨relation, idn_table, names⟩
  | _ => .error (.invalidType "non-map" "a map")

def encodeVariant (v : Variant) : Json :=
  .obj ([("relation", .arr (v.relation.map fun r => .str (DomainVariantRelation.canonical r)))] ++
    optPair "idnTable" (v.idn_table.map .str) ++
    [("variantNames", .arr (v.names.map encodeVariantName))])

/-- `FredKeySet` (lib.rs 859-867): the only object kind with no nested
objects. -/
structure FredKeySet where
  links : List Link
  handle : String
  dns_keys : List KeyData

def decodeFredKeySet (fields : List (String × Json)) : Except DecErr FredKeySet := do
  let links ← reqField fields "links" (decodeArrWith decodeLink)
  let handle ← reqField fields "handle" decodeStringJson
  let dns_keys ← reqField fields "dns_keys" (decodeArrWith decodeKeyData)
  .ok ⟨links, handle, dns_keys⟩

def encodeFredKeySetFields (f : FredKeySet) : List (String × Json) :=
  [("links", .arr (f.links.map encodeLink)), ("handle", .str f.handle),
   ("dns_keys", .arr (f.dns_keys.map encodeKeyData))]

/-!
## The polymorphic object graph (lib.rs 359-399, 525-546, 707-917)

`Object` is the internally tagged union over the seven record kinds
(`#[serde(tag = "objectClassName", rename_all = "lowercase")]`, with the
explicit rename `"ip network"`). The records that nest further objects
are written as functors over the object type and tied in a nested
inductive.
-/

structure EntityF (O : Type) where
  handle : Option String
  vcard_array : Option JCard
  roles : Option (List Role)
  public_ids : Option (List PublicId)
  entities : Option (List O)
  remarks : Option (List NoticeOrRemark)
  links : Option (List Link)
  events : Option (List Event)
  as_event_actor : Option (List Event)
  status : Option (List Status)
  port43 : Option String
  lang : Option String

structure NameserverF (O : Type) where
  handle : Option String
  ldh_name : String
  unicode_name : Option String
  ip_addresses : Option IpAddresses
  entities : Option (List O)
  status : Option (List Status)
  remarks : Option (List NoticeOrRemark)
  notices : Option (List NoticeOrRemark)
  links : Option (List Link)

structure IpNetworkF (O : Type) where
  handle : String
  start_address : IpAddr
  end_address : IpAddr
  ip_version : IpVersion
  name : Option String
  country : Option CountryCode
  parent_handle : Option String
  type : Option String
  entities : Option (List O)
  links : Option (List Link)
  remarks : Option (List NoticeOrRemark)
  events : Option (List Event)
  rdap_conformance : Option (List String)
  notices : Option (List NoticeOrRemark)
  port43 : Option String
  status : Option (List Status)
  lang : Option String
  cidr0_cidrs : Option (List CidrOCidr)
  arin_originas0_originautnums : Option (List Nat)

structure AutNumF (O : Type) where
  handle : String
  start_autnum : Option Nat
  end_autnum : Option Nat
  name : Option String
  country : Option CountryCode
  type : Option String
  entities : List O
  links : Option (List Link)
  remarks : Option (List NoticeOrRemark)
  events : Option (List Event)
  rdap_conformance : Option (List String)
  notices : Option (List NoticeOrRemark)
  port43 : Option String
  status : Option (List Status)
  lang : Option String

structure DomainF (O : Type) where
  handle : Option String
  ldh_name : Option String
  unicode_name : Option String
  entities : List O
  links : Option (List Link)
  variants : Option (List Variant)
  nameservers : Option (List O)
  secure_dns : Option SecureDns
  remarks : Option (List NoticeOrRemark)
  events : List Event
  network : Option O
  rdap_conformance : Option (List String)
  notices : Option (List NoticeOrRemark)
  port43 : Option String
  status : Option (List Status)
  lang : Option String
  fred_keyset : Option O
  fred_nsset : Option O

structure FredNsSetF (O : Type) where
  links : List Link
  handle : String
  nameservers : List (NameserverF O)

inductive Object where
  | autNum (a : AutNumF Object)
  | domain (d : DomainF Object)
  | entity (e : EntityF Object)
  | fredKeySet (f : FredKeySet)
  | fredNsSet (f : FredNsSetF Object)
  | ipNetwork (i : IpNetworkF Object)
  | nameserver (n : NameserverF Object)

/-- The canonical discriminator tag of each object kind (the serde variant
renames of lib.rs 388-399). -/
def objectTag : Object → String
  | .autNum _ => "autnum"
  | .domain _ => "domain"
  | .entity _ => "entity"
  | .fredKeySet _ => "fredkeyset"
  | .fredNsSet _ => "frednsset"
  | .ipNetwork _ => "ip network"
  | .nameserver _ => "nameserver"

/-- The seven recognized discriminator values, in variant order. -/
def objectTags : List String :=
  ["autnum", "domain", "entity", "fredkeyset", "frednsset", "ip network",
   "nameserver"]

/-!
## Fueled recursive decoder for the object graph

Rust's recursive descent terminates because JSON values are finite; the
Lean rendering makes this explicit with a fuel parameter that every level
of the mutual recursion decrements, and the exported entry points supply
`sizeOf` of the input as fuel, which always suffices (each decrement
accompanies a descent into a strict subterm). The fuel-exhausted branches
are unreachable from the entry points.
-/

mutual

def decodeObjectGo : Nat → Json → Except DecErr Object
  | 0, _ => .error (.custom "recursion fuel exhausted")
  | fuel + 1, .obj fields =>
    (match getField fields "objectClassName" with
     | some (.str tag) =>
       if tag = "autnum" then (decodeAutNumGo fuel fields).map .autNum
       else if tag = "domain" then (decodeDomainGo fuel fields).map .domain
       else if tag = "entity" then (decodeEntityGo fuel fields).map .entity
       else if tag = "fredkeyset" then (decodeFredKeySet fields).map .fredKeySet
       else if tag = "frednsset" then (decodeFredNsSetGo fuel fields).map .fredNsSet
       else if tag = "ip network" then (decodeIpNetworkGo fuel fields).map .ipNetwork
       else if tag = "nameserver" then (decodeNameserverGo fuel fields).map .nameserver
       else .error (.unknownVariant tag)
     | some _ => .error (.invalidType "non-string" "a string")
     | none => .error (.missingField "objectClassName"))
  | _ + 1, _ => .error (.invalidType "non-map" "internally tagged enum Object")

def decodeObjectListGo : Nat → List Json → Except DecErr (List Object)
  | 0, _ => .error (.custom "recursion fuel exhausted")
  | _ + 1, [] => .ok []
  | fuel + 1, j :: t => do
    let o ← decodeObjectGo fuel j
    let r ← decodeObjectListGo fuel t
    .ok (o :: r)

/-- Optional `Vec<Object>` field. -/
def optObjListGo : Nat → List (String × Json) → String →
    Except DecErr (Option (List Object))
  | 0, _, _ => .error (.custom "recursion fuel exhausted")
  | fuel + 1, fields, name =>
    match getField fields name with
    | none => .ok none
    | some .null => .ok none
    | some (.arr l) => (decodeObjectListGo fuel l).map some
    | some _ => .error (.invalidType "non-sequence" "a sequence")

/-- Required `Vec<Object>` field. -/
def reqObjListGo : Nat → List (String × Json) → String →
    Except DecErr (List Object)
  | 0, _, _ => .error (.custom "recursion fuel exhausted")
  | fuel + 1, fields, name =>
    match getField fields name with
    | none => .error (.missingField name)
    | some (.arr l) => decodeObjectListGo fuel l
    | some _ => .error (.invalidType "non-sequence" "a sequence")

/-- Optional single `Object` field. -/
def optObjGo : Nat → List (String × Json) → String →
    Except DecErr (Option Object)
  | 0, _, _ => .error (.custom "recursion fuel exhausted")
  | fuel + 1, fields, name =>
    match getField fields name with
    | none => .ok none
    | some .null => .ok none
    | some j => (decodeObjectGo fuel j).map some

def decodeEntityGo : Nat → List (String × Json) → Except DecErr (EntityF Object)
  | 0, _ => .error (.custom "recursion fuel exhausted")
  | fuel + 1, fields => do
    let handle ← optField fields "handle" decodeStringJson
    let vcard_array ← optField fields "vcardArray" decodeJCard
    let roles ← optField fields "roles" (decodeArrWith decodeRoleJson)
    let public_ids ← optField fields "publicIds" (decodeArrWith decodePublicId)
    let entities ← optObjListGo fuel fields "entities"
    let remarks ← optField fields "remarks" (decodeArrWith decodeNoticeOrRemark)
    let links ← optField fields "links" (decodeArrWith decodeLink)
    let events ← optField fields "events" (decodeArrWith decodeEvent)
    let as_event_actor ← optField fields "asEventActor" (decodeArrWith decodeEvent)
    let status ← optField fields "status" (decodeArrWith decodeStatusJson)
    let port43 ← optField fields "port43" decodeStringJson
    let lang ← optField fields "lang" decodeStringJson
    .ok ⟨handle, vcard_array, roles, public_ids, entities, remarks, links,
      events, as_event_actor, status, port43, lang⟩

def decodeNameserverGo : Nat → List (String × Json) →
    Except DecErr (NameserverF Object)
  | 0, _ => .error (.custom "recursion fuel exhausted")
  | fuel + 1, fields => do
    let handle ← optField fields "handle" decodeStringJson
    let ldh_name ← reqField fields "ldhName" decodeStringJson
    let unicode_name ← optField fields "unicodeName" decodeStringJson
    let ip_addresses ← optField fields "ipAddresses" decodeIpAddresses
    let entities ← optObjListGo fuel fields "entities"
    let status ← optField fields "status" (decodeArrWith decodeStatusJson)
    let remarks ← optField fields "remarks" (decodeArrWith decodeNoticeOrRemark)
    let notices ← optField fields "notices" (decodeArrWith decodeNoticeOrRemark)
    let links ← optField fields "links" (decodeArrWith decodeLink)
    .ok ⟨handle, ldh_name, unicode_name, ip_addresses, entities, status,
      remarks, notices, links⟩

def decodeNameserverListGo : Nat → List Json →
    Except DecErr (List (NameserverF Object))
  | 0, _ => .error (.custom "recursion fuel exhausted")
  | _ + 1, [] => .ok []
  | fuel + 1, j :: t => do
    let n ←
      match j with
      | .obj fields => decodeNameserverGo fuel fields
      | _ => Except.error (DecErr.invalidType "non-map" "a map")
    let r ← decodeNameserverListGo fuel t
    .ok (n :: r)

def decodeIpNetworkGo : Nat → List (String × Json) →
    Except DecErr (IpNetworkF Object)
  | 0, _ => .error (.custom "recursion fuel exhausted")
  | fuel + 1, fields => do
    let handle ← reqField fields "handle" decodeStringJson
    let start_address ← reqField fields "startAddress" decodeIpAddrJson
    let end_address ← reqField fields "endAddress" decodeIpAddrJson
    let ip_version ← reqField fields "ipVersion" decodeIpVersion
    let name ← optField fields "name" decodeStringJson
    let country ← optField fields "country" decodeCountryCodeJson
    let parent_handle ← optField fields "parentHandle" decodeStringJson
    let type ← optField fields "type" decodeStringJson
    let entities ← optObjListGo fuel fields "entities"
    let links ← optField fields "links" (decodeArrWith decodeLink)
    let remarks ← optField fields "remarks" (decodeArrWith decodeNoticeOrRemark)
    let events ← optField fields "events" (decodeArrWith decodeEvent)
    let rdap_conformance ← optField fields "rdapConformance" (decodeArrWith decodeStringJson)
    let notices ← optField fields "notices" (decodeArrWith decodeNoticeOrRemark)
    let port43 ← optField fields "port43" decodeStringJson
    let status ← optField fields "status" (decodeArrWith decodeStatusJson)
    let lang ← optField fields "lang" decodeStringJson
    let cidr0_cidrs ← optField fields "cidr0_cidrs" (decodeArrWith decodeCidrOCidr)
    let arin ← optField fields "arin_originas0_originautnums"
      (decodeArrWith (decodeUIntJson 4294967295))
    .ok ⟨handle, start_address, end_address, ip_version, name, country,
      parent_handle, type, entities, links, remarks, events, rdap_conformance,
      notices, port43, status, lang, cidr0_cidrs, arin⟩

def decodeAutNumGo : Nat → List (String × Json) → Except DecErr (AutNumF Object)
  | 0, _ => .error (.custom "recursion fuel exhausted")
  | fuel + 1, fields => do
    let handle ← reqField fields "handle" decodeStringJson
    let start_autnum ← optField fields "startAutnum" (decodeUIntJson 4294967295)
    let end_autnum ← optField fields "endAutnum" (decodeUIntJson 4294967295)
    let name ← optField fields "name" decodeStringJson
    let country ← optField fields "country" decodeCountryCodeJson
    let type ← optField fields "type" decodeStringJson
    let entities ← reqObjListGo fuel fields "entities"
    let links ← optField fields "links" (decodeArrWith decodeLink)
    let remarks ← optField fields "remarks" (decodeArrWith decodeNoticeOrRemark)
    let events ← optField fields "events" (decodeArrWith decodeEvent)
    let rdap_conformance ← optField fields "rdapConformance" (decodeArrWith decodeStringJson)
    let notices ← optField fields "notices" (decodeArrWith decodeNoticeOrRemark)
    let port43 ← optField fields "port43" decodeStringJson
    let status ← optField fields "status" (decodeArrWith decodeStatusJson)
    let lang ← optField fields "lang" decodeStringJson
    .ok ⟨handle, start_autnum, end_autnum, name, country, type, entities,
      links, remarks, events, rdap_conformance, notices, port43, status, lang⟩

def decodeDomainGo : Nat → List (String × Json) → Except DecErr (DomainF Object)
  | 0, _ => .error (.custom "recursion fuel exhausted")
  | fuel + 1, fields => do
    let handle ← optField fields "handle" decodeStringJson
    let ldh_name ← optField fields "ldhName" decodeStringJson
    let unicode_name ← optField fields "unicodeName" decodeStringJson
    let entities ← reqObjListGo fuel fields "entities"
    let links ← optField fields "links" (decodeArrWith decodeLink)
    let variants ← optField fields "variants" (decodeArrWith decodeVariant)
    let nameservers ← optObjListGo fuel fields "nameservers"
    let secure_dns ← optField fields "secureDNS" decodeSecureDns
    let remarks ← optField fields "remarks" (decodeArrWith decodeNoticeOrRemark)
    let events ← reqField fields "events" (decodeArrWith decodeEvent)
    let network ← optObjGo fuel fields "network"
    let rdap_conformance ← optField fields "rdapConformance" (decodeArrWith decodeStringJson)
    let notices ← optField fields "notices" (decodeArrWith decodeNoticeOrRemark)
    let port43 ← optField fields "port43" decodeStringJson
    let status ← optField fields "status" (decodeArrWith decodeStatusJson)
    let lang ← optField fields "lang" decodeStringJson
    let fred_keyset ← optObjGo fuel fields "fredKeyset"
    let fred_nsset ← optObjGo fuel fields "fredNsset"
    .ok ⟨handle, ldh_name, unicode_name, entities, links, variants,
      nameservers, secure_dns, remarks, events, network, rdap_conformance,
      notices, port43, status, lang, fred_keyset, fred_nsset⟩

def decodeFredNsSetGo : Nat → List (String × Json) →
    Except DecErr (FredNsSetF Object)
  | 0, _ => .error (.custom "recursion fuel exhausted")
  | fuel + 1, fields => do
    let links ← reqField fields "links" (decodeArrWith decodeLink)
    let handle ← reqField fields "handle" decodeStringJson
    let nameservers ←
      match getField fields "nameservers" with
      | none => Except.error (DecErr.missingField "nameservers")
      | some (.arr l) => decodeNameserverListGo fuel l
      | some _ => Except.error (DecErr.invalidType "non-sequence" "a sequence")
    .ok ⟨links, handle, nameservers⟩

end

mutual

/-- Executable size of a JSON tree, used as decoding fuel. -/
def jsonFuel : Json → Nat
  | .null => 1
  | .bool _ => 1
  | .num _ => 1
  | .str _ => 1
  | .arr l => 1 + jsonListFuel l
  | .obj fs => 1 + jsonFieldsFuel fs

def jsonListFuel : List Json → Nat
  | [] => 1
  | j :: t => 1 + jsonFuel j + jsonListFuel t

def jsonFieldsFuel : List (String × Json) → Nat
  | [] => 1
  | (_, j) :: t => 1 + jsonFuel j + jsonFieldsFuel t

end

/-- Entry point for the internally tagged `Object` dispatcher: the input's
size always provides enough fuel (every fuel decrement accompanies a
descent into a strict subterm). -/
def decodeObject (j : Json) : Except DecErr Object := decodeObjectGo (jsonFuel j) j

mutual

/-- Executable recursion bound for encoding an object graph. -/
def objectFuel : Object → Nat
  | .autNum ⟨_, _, _, _, _, _, ents, _, _, _, _, _, _, _, _⟩ =>
    4 + objectListFuel ents
  | .domain ⟨_, _, _, ents, _, _, nss, _, _, _, net, _, _, _, _, _, fk, fn⟩ =>
    4 + objectListFuel ents + optObjectListFuel nss + optObjectFuel net +
      optObjectFuel fk + optObjectFuel fn
  | .entity ⟨_, _, _, _, ents, _, _, _, _, _, _, _⟩ => 4 + optObjectListFuel ents
  | .fredKeySet _ => 4
  | .fredNsSet ⟨_, _, nss⟩ => 4 + nameserverListFuel nss
  | .ipNetwork ⟨_, _, _, _, _, _, _, _, ents, _, _, _, _, _, _, _, _, _, _⟩ =>
    4 + optObjectListFuel ents
  | .nameserver ⟨_, _, _, _, ents, _, _, _, _⟩ => 4 + optObjectListFuel ents

def objectListFuel : List Object → Nat
  | [] => 1
  | o :: t => 1 + objectFuel o + objectListFuel t

def optObjectListFuel : Option (List Object) → Nat
  | none => 1
  | some l => 1 + objectListFuel l

def optObjectFuel : Option Object → Nat
  | none => 1
  | some o => 1 + objectFuel o

def nameserverListFuel : List (NameserverF Object) → Nat
  | [] => 1
  | ⟨_, _, _, _, ents, _, _, _, _⟩ :: t =>
    5 + optObjectListFuel ents + nameserverListFuel t

end

/-!
## Fueled recursive encoder

Derived serde serialization of the internally tagged `Object` emits the
`objectClassName` discriminator first, then the variant's own fields in
declaration order, omitting absent options. The tag emission does not
consume fuel, so it is produced for every object regardless of depth.
-/

mutual

def encodeObjectGo : Nat → Object → Json
  | 0, _ => .null
  | fuel + 1, .autNum a =>
    .obj (("objectClassName", .str "autnum") :: encodeAutNumFieldsGo fuel a)
  | fuel + 1, .domain d =>
    .obj (("objectClassName", .str "domain") :: encodeDomainFieldsGo fuel d)
  | fuel + 1, .entity e =>
    .obj (("objectClassName", .str "entity") :: encodeEntityFieldsGo fuel e)
  | _ + 1, .fredKeySet f =>
    .obj (("objectClassName", .str "fredkeyset") :: encodeFredKeySetFields f)
  | fuel + 1, .fredNsSet f =>
    .obj (("objectClassName", .str "frednsset") :: encodeFredNsSetFieldsGo fuel f)
  | fuel + 1, .ipNetwork i =>
    .obj (("objectClassName", .str "ip network") :: encodeIpNetworkFieldsGo fuel i)
  | fuel + 1, .nameserver n =>
    .obj (("objectClassName", .str "nameserver") :: encodeNameserverFieldsGo fuel n)

def encodeObjectListGo : Nat → List Object → List Json
  | 0, _ => []
  | _ + 1, [] => []
  | fuel + 1, o :: t => encodeObjectGo fuel o :: encodeObjectListGo fuel t

def encodeEntityFieldsGo : Nat → EntityF Object → List (String × Json)
  | 0, _ => []
  | fuel + 1, e =>
    optPair "handle" (e.handle.map .str) ++
    optPair "vcardArray" (e.vcard_array.map encodeJCard) ++
    optPair "roles" (e.roles.map fun v => .arr (v.map Role.serializeJson)) ++
    optPair "publicIds" (e.public_ids.map fun v => .arr (v.map encodePublicId)) ++
    optPair "entities" (e.entities.map fun l => .arr (encodeObjectListGo fuel l)) ++
    optPair "remarks" (e.remarks.map fun v => .arr (v.map encodeNoticeOrRemark)) ++
    optPair "links" (e.links.map fun v => .arr (v.map encodeLink)) ++
    optPair "events" (e.events.map fun v => .arr (v.map encodeEvent)) ++
    optPair "asEventActor" (e.as_event_actor.map fun v => .arr (v.map encodeEvent)) ++
    optPair "status" (e.status.map fun v => .arr (v.map Status.serializeJson)) ++
    optPair "port43" (e.port43.map .str) ++
    optPair "lang" (e.lang.map .str)

def encodeNameserverFieldsGo : Nat → NameserverF Object → List (String × Json)
  | 0, _ => []
  | fuel + 1, n =>
    optPair "handle" (n.handle.map .str) ++
    [("ldhName", .str n.ldh_name)] ++
    optPair "unicodeName" (n.unicode_name.map .str) ++
    optPair "ipAddresses" (n.ip_addresses.map encodeIpAddresses) ++
    optPair "entities" (n.entities.map fun l => .arr (encodeObjectListGo fuel l)) ++
    optPair "status" (n.status.map fun v => .arr (v.map Status.serializeJson)) ++
    optPair "remarks" (n.remarks.map fun v => .arr (v.map encodeNoticeOrRemark)) ++
    optPair "notices" (n.notices.map fun v => .arr (v.map encodeNoticeOrRemark)) ++
    optPair "links" (n.links.map fun v => .arr (v.map encodeLink))

def encodeNameserverObjListGo : Nat → List (NameserverF Object) → List Json
  | 0, _ => []
  | _ + 1, [] => []
  | fuel + 1, n :: t =>
    Json.obj (encodeNameserverFieldsGo fuel n) :: encodeNameserverObjListGo fuel t

def encodeIpNetworkFieldsGo : Nat → IpNetworkF Object → List (String × Json)
  | 0, _ => []
  | fuel + 1, i =>
    [("handle", .str i.handle),
     ("startAddress", .str (displayIpAddr i.start_address)),
     ("endAddress", .str (displayIpAddr i.end_address)),
     ("ipVersion", encodeIpVersion i.ip_version)] ++
    optPair "name" (i.name.map .str) ++
    optPair "country" (i.country.map CountryCode.serializeJson) ++
    optPair "parentHandle" (i.parent_handle.map .str) ++
    optPair "type" ( IpNetworkF.type i |>.map .str) ++
    optPair "entities" (i.entities.map fun l => .arr (encodeObjectListGo fuel l)) ++
    optPair "links" (i.links.map fun v => .arr (v.map encodeLink)) ++
    optPair "remarks" (i.remarks.map fun v => .arr (v.map encodeNoticeOrRemark)) ++
    optPair "events" (i.events.map fun v => .arr (v.map encodeEvent)) ++
    optPair "rdapConformance" (i.rdap_conformance.map fun v => .arr (v.map .str)) ++
    optPair "notices" (i.notices.map fun v => .arr (v.map encodeNoticeOrRemark)) ++
    optPair "port43" (i.port43.map .str) ++
    optPair "status" (i.status.map fun v => .arr (v.map Status.serializeJson)) ++
    optPair "lang" (i.lang.map .str) ++
    optPair "cidr0_cidrs" (i.cidr0_cidrs.map fun v => .arr (v.map encodeCidrOCidr)) ++
    optPair "arin_originas0_originautnums"
      (i.arin_originas0_originautnums.map fun v => .arr (v.map .num))

def encodeAutNumFieldsGo : Nat → AutNumF Object → List (String × Json)
  | 0, _ => []
  | fuel + 1, a =>
    [("handle", .str a.handle)] ++
    optPair "startAutnum" (a.start_autnum.map .num) ++
    optPair "endAutnum" (a.end_autnum.map .num) ++
    optPair "name" (a.name.map .str) ++
    optPair "country" (a.country.map CountryCode.serializeJson) ++
    optPair "type" ( AutNumF.type a |>.map .str) ++
    [("entities", .arr (encodeObjectListGo fuel a.entities))] ++
    optPair "links" (a.links.map fun v => .arr (v.map encodeLink)) ++
    optPair "remarks" (a.remarks.map fun v => .arr (v.map encodeNoticeOrRemark)) ++
    optPair "events" (a.events.map fun v => .arr (v.map encodeEvent)) ++
    optPair "rdapConformance" (a.rdap_conformance.map fun v => .arr (v.map .str)) ++
    optPair "notices" (a.notices.map fun v => .arr (v.map encodeNoticeOrRemark)) ++
    optPair "port43" (a.port43.map .str) ++
    optPair "status" (a.status.map fun v => .arr (v.map Status.serializeJson)) ++
    optPair "lang" (a.lang.map .str)

def encodeDomainFieldsGo : Nat → DomainF Object → List (String × Json)
  | 0, _ => []
  | fuel + 1, d =>
    optPair "handle" (d.handle.map .str) ++
    optPair "ldhName" (d.ldh_name.map .str) ++
    optPair "unicodeName" (d.unicode_name.map .str) ++
    [("entities", .arr (encodeObjectListGo fuel d.entities))] ++
    optPair "links" (d.links.map fun v => .arr (v.map encodeLink)) ++
    optPair "variants" (d.variants.map fun v => .arr (v.map encodeVariant)) ++
    optPair "nameservers" (d.nameservers.map fun l => .arr (encodeObjectListGo fuel l)) ++
    optPair "secureDNS" (d.secure_dns.map encodeSecureDns) ++
    optPair "remarks" (d.remarks.map fun v => .arr (v.map encodeNoticeOrRemark)) ++
    [("events", .arr (d.events.map encodeEvent))] ++
    optPair "network" (d.network.map (encodeObjectGo fuel)) ++
    optPair "rdapConformance" (d.rdap_conformance.map fun v => .arr (v.map .str)) ++
    optPair "notices" (d.notices.map fun v => .arr (v.map encodeNoticeOrRemark)) ++
    optPair "port43" (d.port43.map .str) ++
    optPair "status" (d.status.map fun v => .arr (v.map Status.serializeJson)) ++
    optPair "lang" (d.lang.map .str) ++
    optPair "fredKeyset" (d.fred_keyset.map (encodeObjectGo fuel)) ++
    optPair "fredNsset" (d.fred_nsset.map (encodeObjectGo fuel))

def encodeFredNsSetFieldsGo : Nat → FredNsSetF Object → List (String × Json)
  | 0, _ => []
  | fuel + 1, f =>
    [("links", .arr (f.links.map encodeLink)), ("handle", .str f.handle),
     ("nameservers", .arr (encodeNameserverObjListGo fuel f.nameservers))]

end

/-- Entry point for `Object` serialization. -/
def encodeObject (o : Object) : Json := encodeObjectGo (objectFuel o) o

/-- A minimal entity document nested to depth `d`: every `Entity` field is
optional, so each level only carries the discriminator and, below depth 0,
one sub-entity. -/
def nestedEntityJson : Nat → Json
  | 0 => .obj [("objectClassName", .str "entity")]
  | d + 1 =>
    .obj [("objectClassName", .str "entity"),
          ("entities", .arr [nestedEntityJson d])]

/-!
## Helpers for the claim statements
-/

@[simp] theorem except_bind_ok {ε α β : Type} (a : α) (f : α → Except ε β) :
    (Except.ok a >>= f) = f a := rfl

@[simp] theorem except_bind_error {ε α β : Type} (e : ε) (f : α → Except ε β) :
    ((Except.error e : Except ε α) >>= f) = Except.error e := rfl

@[simp] theorem except_map_ok {ε α β : Type} (f : α → β) (a : α) :
    (Except.ok a : Except ε α).map f = .ok (f a) := rfl

@[simp] theorem except_map_error {ε α β : Type} (f : α → β) (e : ε) :
    (Except.error e : Except ε α).map f = .error e := rfl

/-- Boolean list-prefix test. -/
def listIsPrefixOfB : List Char → List Char → Bool
  | [], _ => true
  | _ :: _, [] => false
  | a :: as, b :: bs => a = b && listIsPrefixOfB as bs

/-- Whether `pat` occurs as a contiguous substring of the second list. -/
def containsSubstringB (pat : List Char) : List Char → Bool
  | [] => listIsPrefixOfB pat []
  | c :: t => listIsPrefixOfB pat (c :: t) || containsSubstringB pat t

/-- Whether a `JCardItem` decode failed citing the minimum arity. -/
def isArityError : Except DecErr JCardItem → Bool
  | .error (.invalidLength _ _) => true
  | _ => false

/-!
## C10
-/

/-- C10: NoticeOrRemarkType decode additionally accepts the string
"object redacted due to authorization." — with a trailing dot, in any
casing — and maps it to the ObjectRedactedDueToAuthorization variant (a
tolerance for the 'lat' registry's typo), even though that spelling is not
in the canonical vocabulary. -/
theorem c10_redacted_dot_tolerance (s : String)
    (h : toLowercase s = "object redacted due to authorization.") :
    NoticeOrRemarkType.fromWireString s = some .ObjectRedactedDueToAuthorization := by
  unfold NoticeOrRemarkType.fromWireString
  rw [deserializeStringLowercase_eq_toLowercase, h]
  simp

/-- Witness for C10 at a mixed-case input with the trailing dot. -/
theorem c10_redacted_dot_tolerance_witness :
    toLowercase "Object Redacted Due To Authorization." =
      "object redacted due to authorization." ∧
    NoticeOrRemarkType.fromWireString "Object Redacted Due To Authorization." =
      some .ObjectRedactedDueToAuthorization :=
  ⟨by decide, c10_redacted_dot_tolerance _ (by decide)⟩

/-!
## C7
-/

/-- C7 counterexample: the claim says only two ASCII *letters* decode, but
`CountryCode::from_str` checks only `is_ascii` and byte length, so the
all-digit string "12" decodes successfully (to the bytes of "12"). -/
theorem c7_countrycode_counterexample :
    CountryCode.from_str "12" = .ok ⟨49, 50⟩ ∧
    CountryCode.serializeJson ⟨49, 50⟩ = .str "12" := by
  constructor
  · decide
  · rfl

/-- C7 amended: CountryCode decode succeeds exactly on strings of two
ASCII bytes (letters not required), stores the bytes ASCII-uppercased so
"cz" and "CZ" decode equal and the stored form never contains a lowercase
letter, and any input whose UTF-8 form is not exactly two ASCII bytes
(1-byte, 3-byte, or non-ASCII strings) fails decode. -/
theorem c7_countrycode_amended :
    (CountryCode.from_str "cz" = CountryCode.from_str "CZ" ∧
      CountryCode.from_str "cz" = .ok ⟨67, 90⟩) ∧
    (∀ s c, CountryCode.from_str s = .ok c →
      ¬ (97 ≤ c.b0 ∧ c.b0 ≤ 122) ∧ ¬ (97 ≤ c.b1 ∧ c.b1 ≤ 122)) ∧
    (∀ s, isOkE (CountryCode.from_str s) = true ↔
      ((stringUtf8Bytes s).all fun b => b ≤ 127) = true ∧
        (stringUtf8Bytes s).length = 2) ∧
    (isOkE (CountryCode.from_str "C") = false ∧
      isOkE (CountryCode.from_str "CZE") = false ∧
      isOkE (CountryCode.from_str "ČZ") = false) := by
  refine ⟨⟨by decide, by decide⟩, ?_, ?_, by decide, by decide, by decide⟩
  · intro s c h
    unfold CountryCode.from_str at h
    by_cases hc : ¬ ((stringUtf8Bytes s).all fun b => b ≤ 127) = true ∨
        (stringUtf8Bytes s).length ≠ 2
    · simp only [hc, if_true] at h
      cases h
    · simp only [hc, if_false] at h
      cases h
      constructor <;>
      · dsimp only
        unfold asciiUpperByte
        split <;> omega
  · intro s
    unfold CountryCode.from_str isOkE
    by_cases hc : ¬ ((stringUtf8Bytes s).all fun b => b ≤ 127) = true ∨
        (stringUtf8Bytes s).length ≠ 2
    · simp only [hc, if_true]
      constructor
      · intro h; cases h
      · intro h
        rcases hc with hc | hc
        · exact absurd h.1 hc
        · exact absurd h.2 hc
    · simp only [hc, if_false]
      push_neg at hc
      simp [hc.1, hc.2]

/-- Witness for C7 at "cz". -/
theorem c7_countrycode_witness :
    CountryCode.from_str "cz" = .ok ⟨67, 90⟩ ∧
    ¬ (97 ≤ (67 : Nat) ∧ (67 : Nat) ≤ 122) ∧
    ¬ (97 ≤ (90 : Nat) ∧ (90 : Nat) ≤ 122) ∧
    (isOkE (CountryCode.from_str "cz") = true ↔
      ((stringUtf8Bytes "cz").all fun b => b ≤ 127) = true ∧
        (stringUtf8Bytes "cz").length = 2) :=
  ⟨by decide, (c7_countrycode_amended.2.1 "cz" ⟨67, 90⟩ (by decide)).1,
   (c7_countrycode_amended.2.1 "cz" ⟨67, 90⟩ (by decide)).2,
   c7_countrycode_amended.2.2.1 "cz"⟩

/-!
## C8
-/

/-- C8 counterexample: the claim says a string that is not a sequence of
digits fails decode, but Rust's `u16::from_str` accepts an optional
leading plus sign, so `"+418"` decodes to 418. -/
theorem c8_error_code_counterexample :
    deserialize_error_code (.str "+418") = .ok 418 := by decide

/-- C8 amended: the error-code field decodes a JSON unsigned integer in
0..=65535 to itself and a JSON string through Rust `u16::from_str`
(optional leading plus, then digits, value at most 65535); it fails on
negative or oversized integers, on strings `u16::from_str` rejects, and
on every other JSON shape. -/
theorem c8_error_code_amended :
    deserialize_error_code (.num 418) = .ok 418 ∧
    deserialize_error_code (.str "418") = .ok 418 ∧
    deserialize_error_code (.str "+418") = .ok 418 ∧
    (∀ n : Int, 0 ≤ n → n ≤ 65535 → deserialize_error_code (.num n) = .ok n.toNat) ∧
    (∀ n : Int, 65535 < n → isOkE (deserialize_error_code (.num n)) = false) ∧
    (∀ n : Int, n < 0 → isOkE (deserialize_error_code (.num n)) = false) ∧
    (∀ s, parseU16Str s = none → isOkE (deserialize_error_code (.str s)) = false) ∧
    isOkE (deserialize_error_code (.str "12a")) = false ∧
    isOkE (deserialize_error_code (.num 70000)) = false ∧
    isOkE (deserialize_error_code (.bool true)) = false := by
  refine ⟨by decide, by decide, by decide, ?_, ?_, ?_, ?_, by decide, by decide, by decide⟩
  · intro n h0 h1
    unfold deserialize_error_code
    simp [h0, h1]
  · intro n h
    unfold deserialize_error_code
    have : ¬ (n ≤ 65535) := by omega
    by_cases h0 : 0 ≤ n
    · simp [h0, this]
    · simp [h0]
  · intro n h
    unfold deserialize_error_code
    have : ¬ (0 ≤ n) := by omega
    simp [this]
  · intro s h
    unfold deserialize_error_code
    simp [h]

/-- Witness for C8's quantified conjuncts at concrete inputs. -/
theorem c8_error_code_witness :
    deserialize_error_code (.num 65535) = .ok 65535 ∧
    isOkE (deserialize_error_code (.num 65536)) = false ∧
    isOkE (deserialize_error_code (.num (-1))) = false ∧
    isOkE (deserialize_error_code (.str "four")) = false :=
  ⟨c8_error_code_amended.2.2.2.1 65535 (by decide) (by decide),
   c8_error_code_amended.2.2.2.2.1 65536 (by decide),
   c8_error_code_amended.2.2.2.2.2.1 (-1) (by decide),
   c8_error_code_amended.2.2.2.2.2.2.1 "four" (by decide)⟩

/-!
## C1
-/

theorem deserializeStringLowercase_congr {s t : String}
    (h : toLowercase s = toLowercase t) :
    deserializeStringLowercase s = deserializeStringLowercase t := by
  rw [deserializeStringLowercase_eq_toLowercase,
    deserializeStringLowercase_eq_toLowercase, h]

/-- C1 counterexample: Role decoding is case-sensitive, so the
known-vocabulary spelling "registrant" in uppercase decodes to the
catch-all and does not re-encode to the canonical wire spelling; and
EventAction has no catch-all, so an out-of-vocabulary string fails decode
instead of round-tripping. -/
theorem c1_enum_counterexample :
    Role.fromWireString "REGISTRANT" = Role.Unknown "REGISTRANT" ∧
    Role.serializeJson (Role.fromWireString "REGISTRANT") ≠ Json.str "registrant" ∧
    EventAction.fromWireString "xyzzy" = none := by
  refine ⟨by decide, ?_, by decide⟩
  intro hcontra
  rw [show Role.fromWireString "REGISTRANT" = Role.Unknown "REGISTRANT" by decide]
    at hcontra
  simp [Role.serializeJson] at hcontra

/-- C1 amended: decode-then-encode canonicalization regardless of casing
holds for the three enumerations that lowercase their input (EventAction,
NoticeOrRemarkType, JCardItemDataType), which however reject
out-of-vocabulary strings (no catch-all). Role and Status match their
tables case-sensitively; every input either hits a table entry whose
re-encoding reproduces the input verbatim (except Role's "biilling" typo
entry, which re-encodes as "billing") or decodes to the catch-all carrying
the original string unchanged, which the derived serializer emits as the
externally tagged object containing that string, not as a bare string. -/
theorem c1_enum_roundtrip_amended :
    (∀ s t : String, toLowercase s = toLowercase t →
      EventAction.fromWireString s = EventAction.fromWireString t) ∧
    (∀ a : EventAction, EventAction.fromWireString (EventAction.canonical a) = some a) ∧
    (∀ s t : String, toLowercase s = toLowercase t →
      NoticeOrRemarkType.fromWireString s = NoticeOrRemarkType.fromWireString t) ∧
    (∀ a : NoticeOrRemarkType,
      NoticeOrRemarkType.fromWireString (NoticeOrRemarkType.canonical a) = some a) ∧
    (∀ s t : String, toLowercase s = toLowercase t →
      JCardItemDataType.fromWireString s = JCardItemDataType.fromWireString t) ∧
    (∀ a : JCardItemDataType,
      JCardItemDataType.fromWireString (JCardItemDataType.canonical a) = some a) ∧
    (∀ s, Role.fromWireString s = .Unknown s ∨
      Role.serializeJson (Role.fromWireString s) = .str s ∨ s = "biilling") ∧
    (∀ s, Status.fromString s = .Unknown s ∨
      Status.serializeJson (Status.fromString s) = .str s) ∧
    (∀ s, Role.serializeJson (.Unknown s) = .obj [("unknown", .str s)]) ∧
    (∀ s, Status.serializeJson (.Unknown s) = .obj [("unknown", .str s)]) ∧
    (∀ p ∈ roleTable, Role.fromWireString p.1 = p.2 ∧
      (p.1 = "biilling" ∨ Role.serializeJson p.2 = .str p.1)) ∧
    (Role.fromWireString "biilling" = Role.Billing ∧
      Role.serializeJson Role.Billing = .str "billing") ∧
    (∀ p ∈ statusTable, Status.fromString p.1 = p.2 ∧
      Status.serializeJson p.2 = .str p.1) := by
  refine ⟨?_, ?_, ?_, ?_, ?_, ?_, ?_, ?_, fun s => rfl, fun s => rfl, ?_,
    ⟨by decide, rfl⟩, ?_⟩
  · intro s t h
    unfold EventAction.fromWireString
    rw [deserializeStringLowercase_congr h]
  · intro a; cases a <;> decide
  · intro s t h
    unfold NoticeOrRemarkType.fromWireString
    rw [deserializeStringLowercase_congr h]
  · intro a; cases a <;> decide
  · intro s t h
    unfold JCardItemDataType.fromWireString
    rw [deserializeStringLowercase_congr h]
  · intro a; cases a <;> decide
  · intro s
    unfold Role.fromWireString
    cases h : assocStr s roleTable with
    | none => simp
    | some v =>
      simp only [Option.getD_some]
      refine Or.inr ?_
      refine assocStr_forall
        (fun k w => Role.serializeJson w = .str k ∨ k = "biilling")
        roleTable ?_ s v h
      intro p hp
      fin_cases hp <;> first | exact Or.inl rfl | exact Or.inr rfl
  · intro s
    unfold Status.fromString
    cases h : assocStr s statusTable with
    | none => simp
    | some v =>
      simp only [Option.getD_some]
      refine Or.inr ?_
      refine assocStr_forall (fun k w => Status.serializeJson w = .str k)
        statusTable ?_ s v h
      intro p hp
      fin_cases hp <;> rfl
  · intro p hp
    fin_cases hp <;>
      first
        | exact ⟨by decide, Or.inr rfl⟩
        | exact ⟨by decide, Or.inl rfl⟩
  · intro p hp
    fin_cases hp <;> exact ⟨by decide, rfl⟩

/-- Witness for C1's quantified conjuncts at concrete casings and at
concrete Role and Status table entries. -/
theorem c1_enum_roundtrip_witness :
    toLowercase "REGISTRATION" = toLowercase "registration" ∧
    EventAction.fromWireString "REGISTRATION" =
      EventAction.fromWireString "registration" ∧
    EventAction.fromWireString "registration" = some .Registration ∧
    JCardItemDataType.fromWireString "URI" = JCardItemDataType.fromWireString "uri" ∧
    ("registrant", Role.Registrant) ∈ roleTable ∧
    Role.fromWireString "registrant" = Role.Registrant ∧
    Role.serializeJson Role.Registrant = Json.str "registrant" ∧
    ("pending delete", Status.PendingDelete) ∈ statusTable ∧
    Status.fromString "pending delete" = Status.PendingDelete ∧
    Status.serializeJson Status.PendingDelete = Json.str "pending delete" :=
  ⟨by decide, c1_enum_roundtrip_amended.1 "REGISTRATION" "registration" (by decide),
   by decide,
   c1_enum_roundtrip_amended.2.2.2.2.1 "URI" "uri" (by decide),
   by decide,
   (c1_enum_roundtrip_amended.2.2.2.2.2.2.2.2.2.2.1
     ("registrant", Role.Registrant) (by decide)).1,
   rfl,
   by decide,
   (c1_enum_roundtrip_amended.2.2.2.2.2.2.2.2.2.2.2.2
     ("pending delete", Status.PendingDelete) (by decide)).1,
   (c1_enum_roundtrip_amended.2.2.2.2.2.2.2.2.2.2.2.2
     ("pending delete", Status.PendingDelete) (by decide)).2⟩

/-!
## C2
-/

/-- C2 counterexample: decoding an open-enumeration string value is not
total for EventAction — an out-of-vocabulary string yields the derived
deserializer's unknown-variant error rather than a catch-all variant. -/
theorem c2_totality_counterexample :
    decodeEventActionJson (.str "frobnicate") =
      .error (.unknownVariant "frobnicate") := by decide

/-- C2 amended: decode is total over strings for the two enumerations
with a catch-all variant (Role and Status); the other three
(EventAction, NoticeOrRemarkType, JCardItemDataType) have no catch-all,
and every out-of-vocabulary string — one whose lowercased form is neither
a table key nor the enumeration's special-cased spelling — fails decode
with the derived deserializer's unknown-variant error naming the
lowercased string. -/
theorem c2_totality_amended :
    (∀ s, isOkE (decodeRoleJson (.str s)) = true) ∧
    (∀ s, isOkE (decodeStatusJson (.str s)) = true) ∧
    (∀ s, deserializeStringLowercase s ∉ eventActionTable.map Prod.fst →
      deserializeStringLowercase s ≠ "last update of rdap database" →
      decodeEventActionJson (.str s) =
        .error (.unknownVariant (deserializeStringLowercase s))) ∧
    (∀ s, deserializeStringLowercase s ∉ noticeOrRemarkTypeTable.map Prod.fst →
      deserializeStringLowercase s ≠ "object redacted due to authorization." →
      decodeNoticeOrRemarkTypeJson (.str s) =
        .error (.unknownVariant (deserializeStringLowercase s))) ∧
    (∀ s, deserializeStringLowercase s ∉ jcardItemDataTypeTable.map Prod.fst →
      decodeJCardItemDataTypeJson (.str s) =
        .error (.unknownVariant (deserializeStringLowercase s))) ∧
    isOkE (decodeEventActionJson (.str "frobnicate")) = false ∧
    isOkE (decodeNoticeOrRemarkTypeJson (.str "frobnicate")) = false ∧
    isOkE (decodeJCardItemDataTypeJson (.str "frobnicate")) = false := by
  refine ⟨fun _ => rfl, fun _ => rfl, ?_, ?_, ?_, by decide, by decide, by decide⟩
  · intro s h1 h2
    have hn := assocStr_eq_none_of_not_mem h1
    simp [decodeEventActionJson, EventAction.fromWireString, h2, hn]
  · intro s h1 h2
    have hn := assocStr_eq_none_of_not_mem h1
    simp [decodeNoticeOrRemarkTypeJson, NoticeOrRemarkType.fromWireString, h2, hn]
  · intro s h1
    have hn := assocStr_eq_none_of_not_mem h1
    simp [decodeJCardItemDataTypeJson, JCardItemDataType.fromWireString, hn]

/-- Witness for C2's quantified conjuncts: the out-of-vocabulary string
"frobnicate" fails each closed enumeration with the unknown-variant
error. -/
theorem c2_totality_witness :
    deserializeStringLowercase "frobnicate" ∉ eventActionTable.map Prod.fst ∧
    deserializeStringLowercase "frobnicate" ≠ "last update of rdap database" ∧
    decodeEventActionJson (.str "frobnicate") =
      .error (.unknownVariant (deserializeStringLowercase "frobnicate")) ∧
    deserializeStringLowercase "frobnicate" ∉
      noticeOrRemarkTypeTable.map Prod.fst ∧
    decodeNoticeOrRemarkTypeJson (.str "frobnicate") =
      .error (.unknownVariant (deserializeStringLowercase "frobnicate")) ∧
    deserializeStringLowercase "frobnicate" ∉
      jcardItemDataTypeTable.map Prod.fst ∧
    decodeJCardItemDataTypeJson (.str "frobnicate") =
      .error (.unknownVariant (deserializeStringLowercase "frobnicate")) :=
  ⟨by decide, by decide,
   c2_totality_amended.2.2.1 "frobnicate" (by decide) (by decide),
   by decide,
   c2_totality_amended.2.2.2.1 "frobnicate" (by decide) (by decide),
   by decide,
   c2_totality_amended.2.2.2.2.1 "frobnicate" (by decide)⟩

/-!
## C6
-/

/-- Whether the elements present in a JCard item array prefix are
themselves decodable at their positions (string name, map parameters,
known-or-lowercase type identifier). -/
def wfItemPrefix : List Json → Bool
  | [] => true
  | j0 :: rest =>
    (match j0 with
     | .str _ => true
     | _ => false) &&
    (match rest with
     | [] => true
     | j1 :: rest2 =>
       (match j1 with
        | .obj _ => true
        | _ => false) &&
       (match rest2 with
        | [] => true
        | j2 :: _ => isOkE (decodeJCardItemDataTypeJson j2)))

/-- C6 counterexample: an item array with fewer than four elements whose
first slot is not a string fails with the visitor's type error, not with
an error citing the minimum arity. -/
theorem c6_jcard_arity_counterexample :
    isOkE (decodeJCardItem (.arr [.num 1])) = false ∧
    isArityError (decodeJCardItem (.arr [.num 1])) = false ∧
    decodeJCardItem (.arr [.num 1]) =
      .error (.invalidType "non-string" "a string") := by
  refine ⟨rfl, rfl, rfl⟩

/-- C6 amended: an item array with fewer than four elements always fails
decode; when the elements that are present are themselves decodable, the
failure is `invalid_length` citing "at least four elements" (at the number
of elements present) — a type-mismatched element fails with that element's
type error instead. Every successfully decoded item has a non-empty
trailing-values list (an empty tail after the first three slots fails as
`invalid_length 3`). -/
theorem c6_jcard_arity_amended :
    (∀ l : List Json, l.length < 4 → isOkE (decodeJCardItem (.arr l)) = false) ∧
    (∀ l : List Json, l.length < 4 → wfItemPrefix l = true →
      decodeJCardItem (.arr l) =
        .error (.invalidLength l.length "at least four elements")) ∧
    (∀ j it, decodeJCardItem j = .ok it → it.values ≠ []) := by
  refine ⟨?_, ?_, ?_⟩
  · intro l hlen
    rcases l with _ | ⟨a, _ | ⟨b, _ | ⟨c, _ | ⟨d, t⟩⟩⟩⟩
    · rfl
    · cases a <;> rfl
    · cases a <;> first | rfl | (cases b <;> rfl)
    · cases a <;> try rfl
      cases b <;> try rfl
      cases hd : decodeJCardItemDataTypeJson c <;> simp [decodeJCardItem, hd]
    · simp only [List.length_cons] at hlen
      omega
  · intro l hlen hwf
    rcases l with _ | ⟨a, _ | ⟨b, _ | ⟨c, _ | ⟨d, t⟩⟩⟩⟩
    · rfl
    · cases a <;>
        simp only [wfItemPrefix, Bool.false_and, Bool.true_and, Bool.and_true,
          Bool.false_eq_true] at hwf
      rfl
    · cases a <;>
        simp only [wfItemPrefix, Bool.false_and, Bool.true_and, Bool.and_true,
          Bool.false_eq_true, Bool.and_eq_true, false_and, true_and] at hwf
      cases b <;>
        simp only [Bool.false_and, Bool.true_and, Bool.and_true,
          Bool.false_eq_true, false_and, true_and] at hwf
      rfl
    · cases a <;>
        simp only [wfItemPrefix, Bool.false_and, Bool.true_and, Bool.and_true,
          Bool.false_eq_true, Bool.and_eq_true, false_and, true_and] at hwf
      cases b <;>
        simp only [Bool.false_and, Bool.true_and, Bool.and_true,
          Bool.false_eq_true, Bool.and_eq_true, false_and, true_and] at hwf
      cases hd : decodeJCardItemDataTypeJson c with
      | error e => simp [hd] at hwf
      | ok tid => simp [decodeJCardItem, hd]
    · simp only [List.length_cons] at hlen
      omega
  · intro j it h
    cases j <;> try (cases h)
    rename_i l
    rcases l with _ | ⟨a, _ | ⟨b, _ | ⟨c, vs⟩⟩⟩
    · cases h
    · cases a <;> simp [decodeJCardItem] at h
    · cases a <;> cases b <;> simp [decodeJCardItem] at h
    · cases a <;> try (simp [decodeJCardItem] at h)
      cases b <;> try (simp [decodeJCardItem] at h)
      cases hd : decodeJCardItemDataTypeJson c with
      | error e => simp [decodeJCardItem, hd] at h
      | ok tid =>
        simp only [decodeJCardItem, hd, except_bind_ok] at h
        cases hvs : vs.isEmpty with
        | true => rw [hvs] at h; simp at h
        | false =>
          rw [hvs] at h
          simp only [Bool.false_eq_true, if_false, Except.ok.injEq] at h
          cases h
          cases vs with
          | nil => cases hvs
          | cons v t => simp

/-- Witness for C6's quantified conjuncts: a type-correct three-element
item array fails with the arity error at length 3. -/
theorem c6_jcard_arity_witness :
    (([Json.str "fn", Json.obj [], Json.str "text"] : List Json).length < 4) ∧
    decodeJCardItem (.arr [.str "fn", .obj [], .str "text"]) =
      .error (.invalidLength 3 "at least four elements") :=
  ⟨by decide,
   c6_jcard_arity_amended.2.1 [.str "fn", .obj [], .str "text"] (by decide)
     (by decide)⟩

/-!
## C5
-/

theorem hasUppercase_deserializeStringLowercase (s : String) :
    hasUppercase (deserializeStringLowercase s) = false := by
  rw [deserializeStringLowercase_eq_toLowercase]
  exact hasUppercase_toLowercase s

/-- A JCard item array in canonical form: string property name with no
uppercase characters, object parameter map, type-identifier string that is
the canonical spelling of a known data type, and a non-empty tail. -/
def wfJCardItemJson : Json → Bool
  | .arr (.str name :: .obj _ :: .str ty :: vs) =>
    !hasUppercase name &&
    decide ((JCardItemDataType.fromWireString ty).map JCardItemDataType.canonical
      = some ty) &&
    !vs.isEmpty
  | _ => false

/-- A JCard array in canonical form: the exact tag "vcard" and a list of
canonical items. -/
def wfJCardJson : Json → Bool
  | .arr [.str t, .arr items] => decide (t = "vcard") && items.all wfJCardItemJson
  | _ => false

theorem c5_item_roundtrip :
    ∀ j, wfJCardItemJson j = true →
      ∃ it, decodeJCardItem j = .ok it ∧ encodeJCardItem it = j := by
  intro j h
  rcases j with _ | b | n | s | l | fs <;> first | (simp [wfJCardItemJson] at h; done) | skip
  rcases l with _ | ⟨j0, _ | ⟨j1, _ | ⟨j2, vs⟩⟩⟩ <;>
    first | (simp [wfJCardItemJson] at h; done) | skip
  cases j0 <;> first | (simp [wfJCardItemJson] at h; done) | skip
  rename_i name
  cases j1 <;> first | (simp [wfJCardItemJson] at h; done) | skip
  rename_i m
  cases j2 <;> first | (simp [wfJCardItemJson] at h; done) | skip
  rename_i ty
  simp only [wfJCardItemJson, Bool.and_eq_true, Bool.not_eq_true',
    decide_eq_true_eq] at h
  obtain ⟨⟨hname, hty⟩, hvs⟩ := h
  cases hf : JCardItemDataType.fromWireString ty with
  | none => rw [hf] at hty; cases hty
  | some tid =>
    rw [hf] at hty
    simp only [Option.map_some', Option.some.injEq] at hty
    refine ⟨⟨name, m, tid, vs⟩, ?_, ?_⟩
    · simp [decodeJCardItem, decodeJCardItemDataTypeJson, hf,
        deserializeStringLowercase, hname, hvs]
    · simp [encodeJCardItem, hty]

theorem c5_items_roundtrip :
    ∀ items : List Json, items.all wfJCardItemJson = true →
      ∃ its, decodeListWith decodeJCardItem items = .ok its ∧
        its.map encodeJCardItem = items := by
  intro items
  induction items with
  | nil => intro _; exact ⟨[], rfl, rfl⟩
  | cons j t ih =>
    intro h
    simp only [List.all_cons, Bool.and_eq_true] at h
    obtain ⟨it, hdec, henc⟩ := c5_item_roundtrip j h.1
    obtain ⟨its, hdecs, hencs⟩ := ih h.2
    refine ⟨it :: its, ?_, ?_⟩
    · simp [decodeListWith, hdec, hdecs]
    · simp [henc, hencs]

/-- C5: for every well-formed JCard whose item property names are already
lowercase and whose enum spellings are canonical, encoding the decoded
value reproduces the identical JSON value (positional shape rebuilt,
parameter-map key order preserved, trailing values retained opaquely);
and every decoded JCardItem stores its property name lowercased. -/
theorem c5_jcard_roundtrip :
    (∀ j, wfJCardJson j = true →
      ∃ jc, decodeJCard j = .ok jc ∧ encodeJCard jc = j) ∧
    (∀ j it, decodeJCardItem j = .ok it →
      hasUppercase it.property_name = false) := by
  constructor
  · intro j h
    rcases j with _ | b | n | s | l | fs <;> first | (simp [wfJCardJson] at h; done) | skip
    rcases l with _ | ⟨a, _ | ⟨b, _ | ⟨x, t⟩⟩⟩ <;> first | (simp [wfJCardJson] at h; done) | skip
    cases a <;> first | (simp [wfJCardJson] at h; done) | skip
    rename_i tg
    cases b <;> first | (simp [wfJCardJson] at h; done) | skip
    rename_i items
    simp only [wfJCardJson, Bool.and_eq_true, decide_eq_true_eq] at h
    obtain ⟨rfl, hall⟩ := h
    obtain ⟨its, hdec, henc⟩ := c5_items_roundtrip items hall
    refine ⟨⟨.Vcard, its⟩, ?_, ?_⟩
    · simp [decodeJCard, decodeJCardTypeJson, hdec]
    · simp [encodeJCard, henc]
  · intro j it h
    cases j <;> try (cases h)
    rename_i l
    rcases l with _ | ⟨a, _ | ⟨b, _ | ⟨c, vs⟩⟩⟩
    · cases h
    · cases a <;> simp [decodeJCardItem] at h
    · cases a <;> cases b <;> simp [decodeJCardItem] at h
    · cases a <;> try (simp [decodeJCardItem] at h)
      cases b <;> try (simp [decodeJCardItem] at h)
      cases hd : decodeJCardItemDataTypeJson c with
      | error e => simp [decodeJCardItem, hd] at h
      | ok tid =>
        simp only [decodeJCardItem, hd, except_bind_ok] at h
        cases hvs : vs.isEmpty with
        | true => rw [hvs] at h; simp at h
        | false =>
          rw [hvs] at h
          simp only [Bool.false_eq_true, if_false, Except.ok.injEq] at h
          cases h
          exact hasUppercase_deserializeStringLowercase _

/-- The item list of the multiple-values vcard fixture
(`parse_vcard_multiple_values`, lib.rs 1109-1123), with its
order-sensitive parameter map. -/
def jcardFixture : Json :=
  .arr [.str "vcard", .arr [
    .arr [.str "version", .obj [], .str "text", .str "4.0"],
    .arr [.str "adr",
      .obj [("cc", .str "US"), ("iso-3166-1-alpha-2", .str "US")],
      .str "text", .str "", .str "", .str "", .str "", .str "Washington",
      .str "", .str ""],
    .arr [.str "org", .obj [], .str "text",
      .str "Amazon Registry Services, Inc."]]]

/-- Witness for C5 at the vcard fixture. -/
theorem c5_jcard_roundtrip_witness :
    wfJCardJson jcardFixture = true ∧
    ∃ jc, decodeJCard jcardFixture = .ok jc ∧ encodeJCard jc = jcardFixture :=
  ⟨by decide, c5_jcard_roundtrip.1 jcardFixture (by decide)⟩

/-!
## C3
-/

/-- C3 counterexample: a string matching none of the grammars fails
decode, but the error is the chrono parse error's static message passed to
`serde::de::Error::custom`, which does not name (contain) the unparseable
string. -/
theorem c3_datetime_counterexample :
    deserialize_datetime "hello" =
      .error (.custom "input contains invalid characters") ∧
    containsSubstringB "hello".data
      "input contains invalid characters".data = false := by
  constructor
  · decide
  · decide

/-- C3 amended: timestamp decoding tries, in order, the RFC 3339 grammar;
then, when the string contains 'T', the "%Y-%m-%dT%H:%M:%S" grammar as UTC
and then the "%Y-%m-%dT%H:%M:%SZ%z" grammar with the numeric offset
authoritative; when it lacks 'T', the "%Y-%m-%d %H:%M:%S" grammar as UTC.
The first grammar that parses wins; a string matching none fails decode
with the last attempted grammar's parse error (a static chrono message
that does not include the input string); and decoding
"2015-08-25T00:00:00Z+0800" yields the +08:00-offset instant whose
canonical output is "2015-08-25T00:00:00+08:00". -/
theorem c3_datetime_amended :
    (deserialize_datetime "2015-08-25T00:00:00Z+0800" =
      .ok ⟨2015, 8, 25, 0, 0, 0, 0, 28800⟩ ∧
     toRfc3339 ⟨2015, 8, 25, 0, 0, 0, 0, 28800⟩ = "2015-08-25T00:00:00+08:00") ∧
    (∀ s dt, parseRfc3339 s = .ok dt → deserialize_datetime s = .ok dt) ∧
    (∀ s e dt, parseRfc3339 s = .error e → stringContainsT s = true →
      parseDatetimeT s = .ok dt → deserialize_datetime s = .ok dt) ∧
    (∀ s e e2 dt, parseRfc3339 s = .error e → stringContainsT s = true →
      parseDatetimeT s = .error e2 → parseDatetimeTZz s = .ok dt →
      deserialize_datetime s = .ok dt) ∧
    (∀ s e e2 e3, parseRfc3339 s = .error e → stringContainsT s = true →
      parseDatetimeT s = .error e2 → parseDatetimeTZz s = .error e3 →
      deserialize_datetime s = .error (.custom (ChronoError.message e3))) ∧
    (∀ s e dt, parseRfc3339 s = .error e → stringContainsT s = false →
      parseDatetimeSpace s = .ok dt → deserialize_datetime s = .ok dt) ∧
    (∀ s e e2, parseRfc3339 s = .error e → stringContainsT s = false →
      parseDatetimeSpace s = .error e2 →
      deserialize_datetime s = .error (.custom (ChronoError.message e2))) := by
  refine ⟨⟨by decide, by decide⟩, ?_, ?_, ?_, ?_, ?_, ?_⟩
  · intro s dt h
    unfold deserialize_datetime
    rw [h]
  · intro s e dt h1 h2 h3
    unfold deserialize_datetime
    rw [h1, h2]
    simp [h3]
  · intro s e e2 dt h1 h2 h3 h4
    unfold deserialize_datetime
    rw [h1, h2]
    simp [h3, h4]
  · intro s e e2 e3 h1 h2 h3 h4
    unfold deserialize_datetime
    rw [h1, h2]
    simp [h3, h4]
  · intro s e dt h1 h2 h3
    unfold deserialize_datetime
    rw [h1, h2]
    simp [h3]
  · intro s e e2 h1 h2 h3
    unfold deserialize_datetime
    rw [h1, h2]
    simp [h3]

/-- Witness for C3's fallback conjuncts at the spec's oracle strings: the
no-offset grammar (RFC 3339 fails, 'T' present) and the space-separated
grammar (no 'T'), both resolved as UTC. -/
theorem c3_datetime_witness :
    parseRfc3339 "2019-09-20T11:45:06" = .error .tooShort ∧
    deserialize_datetime "2019-09-20T11:45:06" =
      .ok ⟨2019, 9, 20, 11, 45, 6, 0, 0⟩ ∧
    deserialize_datetime "2016-04-13 08:18:43" =
      .ok ⟨2016, 4, 13, 8, 18, 43, 0, 0⟩ ∧
    toRfc3339 ⟨2019, 9, 20, 11, 45, 6, 0, 0⟩ = "2019-09-20T11:45:06+00:00" :=
  ⟨by decide,
   c3_datetime_amended.2.2.1 "2019-09-20T11:45:06" .tooShort _ (by decide)
     (by decide) (by decide),
   c3_datetime_amended.2.2.2.2.2.1 "2016-04-13 08:18:43" .invalid _ (by decide)
     (by decide) (by decide),
   by decide⟩

/-!
## C4
-/

/-- C4 counterexample: the discriminator is matched exactly, not after
case normalization of the input — the lowercase tag decodes but the same
tag with a capital letter fails. -/
theorem c4_dispatch_counterexample :
    isOkE (decodeObject (.obj [("objectClassName", .str "entity")])) = true ∧
    toLowercase "Entity" = "entity" ∧
    isOkE (decodeObject (.obj [("objectClassName", .str "Entity")])) = false := by
  refine ⟨by decide, by decide, by decide⟩

/-- C4 amended: the objectClassName discriminator is compared exactly
against the seven canonical tags (lowercase, with the literal-space tag
"ip network"); no case normalization of the input value is performed, so
an unrecognized value — including a recognized tag in different casing —
fails the whole decode (no catch-all kind); a successful decode's input
tag is exactly the decoded kind's canonical tag; and re-encoding always
emits the objectClassName field first with that canonical tag. -/
theorem c4_dispatch_amended :
    (∀ fuel j o, decodeObjectGo fuel j = .ok o →
      ∃ fields, j = .obj fields ∧
        getField fields "objectClassName" = some (.str (objectTag o))) ∧
    (∀ fields tag, getField fields "objectClassName" = some (.str tag) →
      tag ∉ objectTags → isOkE (decodeObject (.obj fields)) = false) ∧
    (∀ o : Object, ∃ rest, encodeObject o =
      .obj (("objectClassName", .str (objectTag o)) :: rest)) ∧
    isOkE (decodeObject (.obj [("objectClassName", .str "entity")])) = true := by
  refine ⟨?_, ?_, ?_, by decide⟩
  · intro fuel j o h
    cases fuel with
    | zero => cases h
    | succ f =>
      cases j with
      | obj fields =>
        refine ⟨fields, rfl, ?_⟩
        simp only [decodeObjectGo] at h
        cases hg : getField fields "objectClassName" with
        | none => rw [hg] at h; cases h
        | some tj =>
          rw [hg] at h
          cases tj with
          | str tag =>
            by_cases h1 : tag = "autnum"
            · subst h1
              simp only [if_true] at h
              cases ha : decodeAutNumGo f fields with
              | error e => rw [ha] at h; cases h
              | ok a =>
                rw [ha] at h
                simp only [except_map_ok, Except.ok.injEq] at h
                cases h
                rfl
            · simp only [if_neg h1] at h
              by_cases h2 : tag = "domain"
              · subst h2
                simp only [if_true] at h
                cases ha : decodeDomainGo f fields with
                | error e => rw [ha] at h; cases h
                | ok a =>
                  rw [ha] at h
                  simp only [except_map_ok, Except.ok.injEq] at h
                  cases h
                  rfl
              · simp only [if_neg h2] at h
                by_cases h3 : tag = "entity"
                · subst h3
                  simp only [if_true] at h
                  cases ha : decodeEntityGo f fields with
                  | error e => rw [ha] at h; cases h
                  | ok a =>
                    rw [ha] at h
                    simp only [except_map_ok, Except.ok.injEq] at h
                    cases h
                    rfl
                · simp only [if_neg h3] at h
                  by_cases h4 : tag = "fredkeyset"
                  · subst h4
                    simp only [if_true] at h
                    cases ha : decodeFredKeySet fields with
                    | error e => rw [ha] at h; cases h
                    | ok a =>
                      rw [ha] at h
                      simp only [except_map_ok, Except.ok.injEq] at h
                      cases h
                      rfl
                  · simp only [if_neg h4] at h
                    by_cases h5 : tag = "frednsset"
                    · subst h5
                      simp only [if_true] at h
                      cases ha : decodeFredNsSetGo f fields with
                      | error e => rw [ha] at h; cases h
                      | ok a =>
                        rw [ha] at h
                        simp only [except_map_ok, Except.ok.injEq] at h
                        cases h
                        rfl
                    · simp only [if_neg h5] at h
                      by_cases h6 : tag = "ip network"
                      · subst h6
                        simp only [if_true] at h
                        cases ha : decodeIpNetworkGo f fields with
                        | error e => rw [ha] at h; cases h
                        | ok a =>
                          rw [ha] at h
                          simp only [except_map_ok, Except.ok.injEq] at h
                          cases h
                          rfl
                      · simp only [if_neg h6] at h
                        by_cases h7 : tag = "nameserver"
                        · subst h7
                          simp only [if_true] at h
                          cases ha : decodeNameserverGo f fields with
                          | error e => rw [ha] at h; cases h
                          | ok a =>
                            rw [ha] at h
                            simp only [except_map_ok, Except.ok.injEq] at h
                            cases h
                            rfl
                        · simp only [if_neg h7] at h
                          cases h
          | null => cases h
          | bool b => cases h
          | num n => cases h
          | arr l => cases h
          | obj f2 => cases h
      | null => cases h
      | bool b => cases h
      | num n => cases h
      | str s => cases h
      | arr l => cases h
  · intro fields tag hg hmem
    suffices hall : ∀ fuel, isOkE (decodeObjectGo fuel (.obj fields)) = false by
      exact hall _
    intro fuel
    cases fuel with
    | zero => rfl
    | succ f =>
      simp only [objectTags, List.mem_cons, List.not_mem_nil, or_false,
        not_or] at hmem
      obtain ⟨c1, c2, c3, c4, c5, c6, c7⟩ := hmem
      simp only [decodeObjectGo]
      rw [hg]
      simp [c1, c2, c3, c4, c5, c6, c7]
  · intro o
    have hpos : 1 ≤ objectFuel o := by
      cases o <;> rename_i x <;> cases x <;> simp [objectFuel] <;> omega
    unfold encodeObject
    obtain ⟨f, hf⟩ : ∃ f, objectFuel o = f + 1 := ⟨objectFuel o - 1, by omega⟩
    rw [hf]
    cases o <;> exact ⟨_, rfl⟩

/-- Witness for C4's quantified conjuncts: an unrecognized tag fails the
whole decode. -/
theorem c4_dispatch_witness :
    getField [("objectClassName", Json.str "thing")] "objectClassName" =
      some (.str "thing") ∧
    "thing" ∉ objectTags ∧
    isOkE (decodeObject (.obj [("objectClassName", .str "thing")])) = false :=
  ⟨rfl, by decide,
   c4_dispatch_amended.2.1 [("objectClassName", .str "thing")] "thing"
     rfl (by decide)⟩

/-!
## C9
-/

/-- The decoded value of `nestedEntityJson d`: entities within entities. -/
def nestedEntityObject : Nat → Object
  | 0 => .entity ⟨none, none, none, none, none, none, none, none, none, none,
    none, none⟩
  | d + 1 => .entity ⟨none, none, none, none, some [nestedEntityObject d],
    none, none, none, none, none, none, none⟩

theorem nested_decode (d : Nat) : ∀ fuel, 4 * d + 3 ≤ fuel →
    decodeObjectGo fuel (nestedEntityJson d) = .ok (nestedEntityObject d) := by
  induction d with
  | zero =>
    intro fuel hf
    obtain ⟨f, rfl⟩ : ∃ f, fuel = f + 1 + 1 + 1 := ⟨fuel - 3, by omega⟩
    simp [nestedEntityJson, decodeObjectGo, decodeEntityGo, getField, optField,
      optObjListGo, nestedEntityObject]
  | succ d ih =>
    intro fuel hf
    obtain ⟨g, rfl⟩ : ∃ g, fuel = g + 1 + 1 + 1 + 1 + 1 := ⟨fuel - 5, by omega⟩
    have h3 := ih (g + 1) (by omega)
    have h2 : decodeObjectListGo (g + 1 + 1) [nestedEntityJson d] =
        .ok [nestedEntityObject d] := by
      simp only [decodeObjectListGo, h3, except_bind_ok]
    have h4 : decodeEntityGo (g + 1 + 1 + 1 + 1)
        [("objectClassName", Json.str "entity"),
         ("entities", Json.arr [nestedEntityJson d])] =
        .ok ⟨none, none, none, none, some [nestedEntityObject d], none, none,
          none, none, none, none, none⟩ := by
      simp [decodeEntityGo, optObjListGo, h2, optField, getField]
    simp [nestedEntityJson, decodeObjectGo, h4, nestedEntityObject, getField]

theorem nested_jsonFuel_bound (d : Nat) :
    4 * d + 3 ≤ jsonFuel (nestedEntityJson d) := by
  induction d with
  | zero => decide
  | succ d ih =>
    simp only [nestedEntityJson, jsonFuel, jsonListFuel, jsonFieldsFuel]
    omega

/-- C9: the crate's decoders impose no nesting-depth limit of their own —
an entity-within-entity document decodes successfully at every depth,
including depth 200 (beyond serde_json's own text-parser recursion limit
of 128), and no "too deeply nested" error exists in the crate. -/
theorem c9_nesting_no_limit :
    (∀ d, decodeObject (nestedEntityJson d) = .ok (nestedEntityObject d)) ∧
    isOkE (decodeObject (nestedEntityJson 200)) = true := by
  have hall : ∀ d, decodeObject (nestedEntityJson d) = .ok (nestedEntityObject d) := by
    intro d
    unfold decodeObject
    exact nested_decode d _ (nested_jsonFuel_bound d)
  exact ⟨hall, by rw [hall 200]; rfl⟩
